import Mathlib

/-!
Verification of the ValvX resumable upload pipeline.

This file gives a shallow embedding of the four components of the upload
core and proves the stated properties about them:

* `ValvX.Client`   — the transfer queue manager
  (`valvx-web/composables/useFileUpload.ts`);
* `ValvX.Endpoint` — the simplified TUS protocol endpoint
  (`valvx-api/upload/handler.go`, `handlePatch` / `handleHead`);
* `ValvX.Registrar` — the completion registrar
  (`valvx-api/upload/handler.go`, `onUploadComplete`);
* `ValvX.Bridge`   — the Speckle conversion bridge
  (`SpeckleBridge.TriggerImport` / `pollImportStatus`).

Numbers that the source manipulates as JavaScript numbers (byte counts,
timestamps, speeds) are modelled as `Nat` / `Int` / `Rat`; fallible calls
are modelled with `Except` / `Option`; the SQL transaction is modelled
with explicit staged statements applied at commit.
-/

namespace ValvX.Client

/-- Upload item status, from `valvx-web/types/upload.ts` (`UploadStatus`). -/
inductive UploadStatus
  | queued
  | uploading
  | paused
  | processing
  | complete
  | error
  deriving DecidableEq, Repr

/-- One client-tracked upload, from `UploadFile` in
`valvx-web/types/upload.ts` (fields not touched by the queue logic are
omitted). -/
structure UploadFile where
  id : Nat
  name : String
  status : UploadStatus
  progress : Rat
  bytesUploaded : Nat
  bytesTotal : Nat
  errMsg : Option String
  deriving DecidableEq, Repr

/-- The mutable state of `useFileUpload`: the `files` array, the
`activeUploads` counter and the key set of the `tusInstances` map. -/
structure QueueState where
  files : List UploadFile
  activeUploads : Int
  instances : List Nat
  deriving DecidableEq, Repr

/-- Model of `MAX_PARALLEL_UPLOADS = 3` in `useFileUpload.ts`. -/
def maxParallelUploads : Int := 3

/-- Update every file whose id matches (ids are unique UUIDs in the
source, so at most one file is affected). -/
def setFile (fs : List UploadFile) (id : Nat) (g : UploadFile → UploadFile) :
    List UploadFile :=
  fs.map (fun f => if f.id = id then g f else f)

/-- Model of `files.value.find((f) => f.id === fileId)`. -/
def findFile (s : QueueState) (id : Nat) : Option UploadFile :=
  s.files.find? (fun f => decide (f.id = id))

/-- Status of the file with the given id, if present. -/
def statusOf (s : QueueState) (id : Nat) : Option UploadStatus :=
  (findFile s id).map (fun f => f.status)

/-- Model of `tusInstances.set(uploadFile.id, tusUpload)`: record the key. -/
def instInsert (l : List Nat) (id : Nat) : List Nat :=
  if l.contains id then l else id :: l

/-- Model of `tusInstances.delete(fileId)`: drop the key. -/
def instErase (l : List Nat) (id : Nat) : List Nat :=
  l.filter (fun i => decide (i ≠ id))

/-- The status/field updates performed by `startUpload`. -/
def markUploading (f : UploadFile) : UploadFile :=
  { f with status := .uploading }

/-- Model of `startUpload`: mark uploading, bump `activeUploads`, register the tus
instance (the network call itself is environment). -/
def startUpload (s : QueueState) (f : UploadFile) : QueueState :=
  { files := setFile s.files f.id markUploading
    activeUploads := s.activeUploads + 1
    instances := instInsert s.instances f.id }

/-- One step of the `while` loop of `processQueue`, with explicit fuel.
Each iteration moves one `queued` file to `uploading`, so the number of
queued files strictly decreases and `files.length` fuel is enough for the
loop to reach its own exit condition. -/
def processQueueAux : Nat → QueueState → QueueState
  | 0, s => s
  | fuel + 1, s =>
    if s.activeUploads < maxParallelUploads then
      match s.files.find? (fun f => decide (f.status = .queued)) with
      | none => s
      | some f => processQueueAux fuel (startUpload s f)
    else s

/-- Model of `processQueue()`. -/
def processQueue (s : QueueState) : QueueState :=
  processQueueAux s.files.length s

/-- Model of `addFiles(rawFiles, folderId)`: append fresh `queued` items, then
`processQueue()`.  Each triple is (generated id, name, size). -/
def addFiles (s : QueueState) (nf : List (Nat × String × Nat)) : QueueState :=
  processQueue
    { s with
      files := s.files ++ nf.map (fun t =>
        { id := t.1, name := t.2.1, status := .queued, progress := 0,
          bytesUploaded := 0, bytesTotal := t.2.2, errMsg := none }) }

/-- Model of `pauseUpload(fileId)`: if a tus instance and the file exist, abort,
mark `paused`, decrement `activeUploads`, `processQueue()`. -/
def pauseUpload (s : QueueState) (id : Nat) : QueueState :=
  if s.instances.contains id ∧ (findFile s id).isSome then
    processQueue
      { files := setFile s.files id (fun f => { f with status := .paused })
        activeUploads := s.activeUploads - 1
        instances := s.instances }
  else s

/-- Model of `resumeUpload(fileId)`: if a tus instance and the file exist, mark
`uploading` and increment `activeUploads` — with no ceiling check. -/
def resumeUpload (s : QueueState) (id : Nat) : QueueState :=
  if s.instances.contains id ∧ (findFile s id).isSome then
    { files := setFile s.files id (fun f => { f with status := .uploading })
      activeUploads := s.activeUploads + 1
      instances := s.instances }
  else s

/-- The reset performed by `retryUpload` on the failed item. -/
def markRetried (f : UploadFile) : UploadFile :=
  { f with status := .queued, errMsg := none, progress := 0, bytesUploaded := 0 }

/-- Model of `retryUpload(fileId)`: only for items in `error` status; resets
progress and uploaded bytes to zero, drops the tus instance, re-queues. -/
def retryUpload (s : QueueState) (id : Nat) : QueueState :=
  match findFile s id with
  | some f =>
    if f.status = .error then
      processQueue
        { files := setFile s.files id markRetried
          activeUploads := s.activeUploads
          instances := instErase s.instances id }
    else s
  | none => s

/-- The slot released by `removeUpload`: one when the removed item was
`uploading` (`if file?.status === 'uploading'`), zero otherwise. -/
def removeDec (s : QueueState) (id : Nat) : Int :=
  match findFile s id with
  | some f => if f.status = .uploading then 1 else 0
  | none => 0

/-- Model of `removeUpload(fileId)`: abort and drop the instance, decrement
`activeUploads` when the item was uploading, remove it, `processQueue()`. -/
def removeUpload (s : QueueState) (id : Nat) : QueueState :=
  processQueue
    { files := s.files.filter (fun f => decide (f.id ≠ id))
      activeUploads := s.activeUploads - removeDec s id
      instances := instErase s.instances id }

/-- Model of `clearCompleted()`. -/
def clearCompleted (s : QueueState) : QueueState :=
  { s with files := s.files.filter (fun f => decide (f.status ≠ .complete)) }

/-- The per-file update of `cancelAll`. -/
def cancelFile (f : UploadFile) : UploadFile :=
  if f.status = .uploading ∨ f.status = .queued
  then { f with status := .paused } else f

/-- Model of `cancelAll()`: abort everything, clear the instance map, zero the
counter, move `uploading`/`queued` items to `paused`. -/
def cancelAll (s : QueueState) : QueueState :=
  { files := s.files.map cancelFile
    activeUploads := 0
    instances := [] }

/-- The `onSuccess` tus callback: fires only for an in-flight upload
(live instance, `uploading` status); marks complete and frees the slot. -/
def onSuccess (s : QueueState) (id : Nat) : QueueState :=
  if s.instances.contains id ∧ statusOf s id = some .uploading then
    processQueue
      { files := setFile s.files id
          (fun f => { f with status := .complete, progress := 100 })
        activeUploads := s.activeUploads - 1
        instances := instErase s.instances id }
  else s

/-- The `onError` tus callback: fires only for an in-flight upload; marks
`error` and frees the slot. -/
def onError (s : QueueState) (id : Nat) (msg : String) : QueueState :=
  if s.instances.contains id ∧ statusOf s id = some .uploading then
    processQueue
      { files := setFile s.files id
          (fun f => { f with status := .error, errMsg := some msg })
        activeUploads := s.activeUploads - 1
        instances := instErase s.instances id }
  else s

/-- The queue-manager operations of the claim, plus the tus completion
callbacks through which uploads finish. -/
inductive QOp
  | add (nf : List (Nat × String × Nat))
  | pause (id : Nat)
  | resume (id : Nat)
  | retry (id : Nat)
  | remove (id : Nat)
  | finishOk (id : Nat)
  | finishErr (id : Nat) (msg : String)
  | cancel

/-- Interpretation of one operation. -/
def applyOp (s : QueueState) : QOp → QueueState
  | .add nf => addFiles s nf
  | .pause id => pauseUpload s id
  | .resume id => resumeUpload s id
  | .retry id => retryUpload s id
  | .remove id => removeUpload s id
  | .finishOk id => onSuccess s id
  | .finishErr id msg => onError s id msg
  | .cancel => cancelAll s

/-- Run a sequence of operations. -/
def applyOps (s : QueueState) (ops : List QOp) : QueueState :=
  ops.foldl applyOp s

/-- The empty initial state of the composable. -/
def initState : QueueState := { files := [], activeUploads := 0, instances := [] }

/-- Number of items currently in `uploading` status. -/
def countUploading (fs : List UploadFile) : Nat :=
  fs.countP (fun f => decide (f.status = .uploading))

/-- The ids of a file list (unique in the source: `crypto.randomUUID`). -/
def ids (fs : List UploadFile) : List Nat := fs.map (fun f => f.id)

/-- One entry of the module-level `speedSamples` array: a `Date.now()`
timestamp (milliseconds) and the aggregate uploaded byte count at that
moment. -/
structure SpeedSample where
  time : Rat
  bytes : Rat
  deriving DecidableEq, Repr

/-- The sample-retention test of `calculateSpeed`:
`now - s.time < 5000` — keep only the last 5 seconds of samples. -/
def inWindow (now : Rat) (s : SpeedSample) : Bool :=
  decide (now - s.time < 5000)

/-- The computation `calculateSpeed` performs on the retained samples:
fewer than 2 samples give 0; otherwise the byte delta between the newest
and oldest retained sample divided by their time span in seconds, or 0
when the span is not positive. -/
def speedOfWindow : List SpeedSample → Rat
  | a :: b :: rest =>
    let newest := (a :: b :: rest).getLast (List.cons_ne_nil a (b :: rest))
    let timeDiff := (newest.time - a.time) / 1000
    if timeDiff ≤ 0 then 0 else (newest.bytes - a.bytes) / timeDiff
  | _ => 0

/-- Model of `calculateSpeed()`: filter the sample array to the trailing 5-second
window, then compute the window's throughput. -/
def calculateSpeed (now : Rat) (samples : List SpeedSample) : Rat :=
  speedOfWindow (samples.filter (inWindow now))

/-- Model of `files.value.reduce((sum, f) => sum + f.bytesTotal, 0)`. -/
def totalBytes (fs : List UploadFile) : Nat :=
  fs.foldl (fun acc f => acc + f.bytesTotal) 0

/-- Model of `files.value.reduce((sum, f) => sum + f.bytesUploaded, 0)`. -/
def uploadedBytes (fs : List UploadFile) : Nat :=
  fs.foldl (fun acc f => acc + f.bytesUploaded) 0

/-- The `eta` field of `batchState`:
`speed > 0 ? (total - uploaded) / speed : 0` — the value 0 is the
composable's sentinel for "ETA unavailable". -/
def batchEta (now : Rat) (samples : List SpeedSample) (fs : List UploadFile) : Rat :=
  let speed := calculateSpeed now samples
  let remaining := (totalBytes fs : Rat) - (uploadedBytes fs : Rat)
  if speed > 0 then remaining / speed else 0

end ValvX.Client

namespace ValvX.Endpoint

/-!
The simplified TUS endpoint of `valvx-api/upload/handler.go`
(`HandleTUS` dispatching to `handlePatch` / `handleHead`).  The
`upload_state` table row created by `handleCreate` is the transfer
session; `handlePatch` and `handleHead` receive the same database but —
as the source stands — neither reads nor writes it.
-/

/-- Upload engine configuration (`Config`). -/
structure Config where
  maxUploadSize : Int
  chunkSize : Int
  deriving DecidableEq, Repr

/-- One `upload_state` row: the server-side transfer session. -/
structure UploadSession where
  id : String
  totalSize : Nat
  durableOffset : Nat
  deriving DecidableEq, Repr

/-- The server-side session store. -/
structure ServerState where
  sessions : List UploadSession
  deriving DecidableEq, Repr

/-- A PATCH (send-chunk) request: the path split on `/`, the
`Upload-Offset` header value, and `ContentLength`. -/
structure PatchRequest where
  pathParts : List String
  uploadOffsetHeader : Nat
  contentLength : Int
  deriving DecidableEq, Repr

/-- The response of `handlePatch`: HTTP status and the returned
`Upload-Offset` header when set. -/
structure PatchResponse where
  status : Nat
  uploadOffset : Option Int
  deriving DecidableEq, Repr

/-- Model of `handlePatch`: after validating the path it computes the chunk size
from `ContentLength` (falling back to the configured chunk size) and
replies `204` with `Upload-Offset` set to that chunk size.  It never
compares the caller-supplied offset with the session's durable offset,
never returns `409`, and never touches the session store. -/
def handlePatch (cfg : Config) (st : ServerState) (r : PatchRequest) :
    PatchResponse × ServerState :=
  if r.pathParts.length < 4 then
    ({ status := 400, uploadOffset := none }, st)
  else
    let chunkSize := if r.contentLength ≤ 0 then cfg.chunkSize else r.contentLength
    ({ status := 204, uploadOffset := some chunkSize }, st)

/-- The response of `handleHead`: HTTP status, `Upload-Offset` and
`Upload-Length` headers. -/
structure HeadResponse where
  status : Nat
  uploadOffset : Nat
  uploadLength : Nat
  deriving DecidableEq, Repr

/-- Model of `handleHead`: replies `200` with `Upload-Offset: 0` and
`Upload-Length: 0` regardless of the session's actual durable offset. -/
def handleHead (st : ServerState) (r : List String) : HeadResponse :=
  { status := 200, uploadOffset := 0, uploadLength := 0 }

end ValvX.Endpoint

namespace ValvX.Registrar

/-!
The completion registrar: `onUploadComplete` in
`valvx-api/upload/handler.go` (the hook fed by the tus server's
`CompleteUploads` channel).  The SQL transaction is modelled with staged
statements and PostgreSQL semantics: a failed statement leaves the
transaction aborted, later statements in it fail, and committing an
aborted transaction persists nothing and reports failure.
-/

/-- An `arca_file` row.  `sessionId` is a ghost provenance field (not a
column): the upload session whose completion event created the row; it
lets the development count catalog entries per session. -/
structure FileRow where
  id : Nat
  name : String
  ext : String
  sessionId : String
  deriving DecidableEq, Repr

/-- An `arca_file_version` row. -/
structure FileVersionRow where
  id : Nat
  number : Nat
  size : Int
  fileId : Nat
  creatorId : String
  deriving DecidableEq, Repr

/-- An `arca_folder_file` row. -/
structure FolderFileRow where
  folderId : String
  fileId : Nat
  deriving DecidableEq, Repr

/-- The catalog tables the registrar writes. -/
structure Catalog where
  files : List FileRow
  versions : List FileVersionRow
  folderLinks : List FolderFileRow
  deriving DecidableEq, Repr

/-- A statement staged inside the transaction. -/
inductive TxStmt
  | insertFile (r : FileRow)
  | insertVersion (r : FileVersionRow)
  | insertLink (r : FolderFileRow)
  deriving DecidableEq, Repr

/-- Apply one committed statement to the catalog. -/
def applyStmt (c : Catalog) : TxStmt → Catalog
  | .insertFile r => { c with files := c.files ++ [r] }
  | .insertVersion r => { c with versions := c.versions ++ [r] }
  | .insertLink r => { c with folderLinks := c.folderLinks ++ [r] }

/-- An open transaction: the staged statements and the aborted flag. -/
structure Tx where
  staged : List TxStmt
  aborted : Bool
  deriving DecidableEq, Repr

/-- Model of `tx.ExecContext`: in an aborted transaction every statement fails;
otherwise the statement is staged when the database accepts it (`ok`) and
aborts the transaction when it fails. -/
def txExec (tx : Tx) (s : TxStmt) (ok : Bool) : Tx × Bool :=
  if tx.aborted then (tx, false)
  else if ok then ({ staged := tx.staged ++ [s], aborted := false }, true)
  else ({ tx with aborted := true }, false)

/-- Model of `tx.Commit`: an aborted transaction (or a commit the database
rejects) persists nothing; otherwise the staged statements are applied. -/
def txCommit (c : Catalog) (tx : Tx) (commitOk : Bool) : Except String Catalog :=
  if tx.aborted then Except.error "current transaction is aborted"
  else if commitOk then Except.ok (tx.staged.foldl applyStmt c)
  else Except.error "commit io failure"

/-- The environment's verdict on each database interaction of one
`onUploadComplete` run. -/
structure TxEnv where
  beginOk : Bool
  fileOk : Bool
  versionOk : Bool
  linkOk : Bool
  commitOk : Bool
  deriving DecidableEq, Repr

/-- One entry of the handler's log. -/
inductive LogEntry
  | errorEntry (stage : String) (msg : String)
  | infoEntry (msg : String)
  deriving DecidableEq, Repr

/-- A `CompleteUploads` event: the session id with the upload's metadata
map (already split into the keys the handler reads) and final size. -/
structure CompletionEvent where
  sessionId : String
  filename : String
  extMeta : String
  folderId : String
  creatorIdMeta : String
  creatorIdAlt : String
  size : Int
  deriving DecidableEq, Repr

/-- Model of `filepath.Ext`: the suffix of the path starting at the final dot of
the final path element, or `""` when that element has no dot. -/
def goFilepathExt (s : String) : String :=
  let step : Option (List Char) → Char → Option (List Char) := fun acc c =>
    if c = '/' then none
    else if c = '.' then some ['.']
    else acc.map (fun l => l ++ [c])
  match s.data.foldl step none with
  | none => ""
  | some l => ⟨l⟩

/-- Model of `strings.TrimPrefix(x, ".")`. -/
def stripLeadingDot (s : String) : String :=
  match s.data with
  | '.' :: rest => ⟨rest⟩
  | _ => s

/-- Model of `strings.TrimSuffix(filename, "." + ext)`. -/
def stripDotExt (filename ext : String) : String :=
  let suf := '.' :: ext.data
  if suf.isSuffixOf filename.data
  then ⟨filename.data.take (filename.data.length - suf.length)⟩
  else filename

/-- The extension derivation of `onUploadComplete`:
`strings.TrimPrefix(filepath.Ext(filename), ".")`, falling back to the
`ext` metadata entry when empty. -/
def deriveExt (ev : CompletionEvent) : String :=
  let e := stripLeadingDot (goFilepathExt ev.filename)
  if e = "" then ev.extMeta else e

/-- The creator derivation: `metadata["creatorId"]`, falling back to
`metadata["creator_id"]`. -/
def deriveCreator (ev : CompletionEvent) : String :=
  if ev.creatorIdMeta = "" then ev.creatorIdAlt else ev.creatorIdMeta

/-- Whether the event names a destination folder other than the root
(`folderId != "" && folderId != "root"`). -/
def wantsLink (ev : CompletionEvent) : Prop :=
  ev.folderId ≠ "" ∧ ev.folderId ≠ "root"

instance (ev : CompletionEvent) : Decidable (wantsLink ev) :=
  inferInstanceAs (Decidable (And _ _))

/-- Registrar state: the catalog plus the UUID source (`uuid.New()` is
modelled as a counter handing out fresh identifiers). -/
structure RegState where
  catalog : Catalog
  nextId : Nat
  deriving DecidableEq, Repr

/-- Model of `onUploadComplete(event)`: derive name/extension/creator from the
metadata, generate fresh ids, then in one transaction insert the file
row, the version row (sequence number 1), and — for a non-root
destination folder — the folder link.  The first three interactions are
error-checked and logged; the folder-link statement's error is discarded
by the source (a failure there surfaces only as the commit failing). -/
def onUploadComplete (env : TxEnv) (st : RegState) (ev : CompletionEvent) :
    RegState × List LogEntry :=
  let ext := deriveExt ev
  let creator := deriveCreator ev
  let fileID := st.nextId
  let fileVersionID := st.nextId + 1
  let bumped : RegState := { st with nextId := st.nextId + 2 }
  if ¬ env.beginOk then
    (bumped, [.errorEntry "begin tx" "cannot begin"])
  else
    let tx0 : Tx := { staged := [], aborted := false }
    let r1 := txExec tx0
      (.insertFile { id := fileID, name := stripDotExt ev.filename ext,
                     ext := ext, sessionId := ev.sessionId }) env.fileOk
    if ¬ r1.2 then (bumped, [.errorEntry "insert file" "statement failed"])
    else
      let r2 := txExec r1.1
        (.insertVersion { id := fileVersionID, number := 1, size := ev.size,
                          fileId := fileID, creatorId := creator }) env.versionOk
      if ¬ r2.2 then (bumped, [.errorEntry "insert file_version" "statement failed"])
      else
        let tx3 :=
          if wantsLink ev then
            (txExec r2.1 (.insertLink { folderId := ev.folderId, fileId := fileID })
              env.linkOk).1
          else r2.1
        match txCommit st.catalog tx3 env.commitOk with
        | .error e => (bumped, [.errorEntry "commit" e])
        | .ok c =>
          ({ catalog := c, nextId := st.nextId + 2 },
           [.infoEntry "Created file record"])

/-- Model of `processCompletedUploads`: each event received from the
`CompleteUploads` channel is handed to `onUploadComplete` exactly once. -/
def processEvents (env : TxEnv) : RegState → List CompletionEvent → RegState
  | st, [] => st
  | st, e :: rest => processEvents env (onUploadComplete env st e).1 rest

/-- Catalog entries whose ghost provenance is the given session. -/
def entriesFor (c : Catalog) (sid : String) : Nat :=
  c.files.countP (fun r => decide (r.sessionId = sid))

end ValvX.Registrar

namespace ValvX.Bridge

/-!
The Speckle conversion bridge (`SpeckleBridge` in the upload package):
`TriggerImport` creates the `arca_speckle_mapping` row and drives it to a
terminal state; `pollImportStatus` polls the remote job every 5 seconds
with a 10-minute timeout.  Database writes are modelled as succeeding
(the bridge discards their errors); the remote HTTP interactions are the
fallible environment.
-/

/-- The `status` column of `arca_speckle_mapping`. -/
inductive MappingStatus
  | pending
  | processing
  | ready
  | error
  deriving DecidableEq, Repr

/-- One `arca_speckle_mapping` row. -/
structure Mapping where
  fileVersionId : Nat
  modelId : String
  objectId : String
  status : MappingStatus
  errorMessage : String
  deriving DecidableEq, Repr

/-- The bridge-visible database: the mapping table, plus the upload
records (upload id with status text) which no bridge operation touches. -/
structure BridgeDB where
  mappings : List Mapping
  uploads : List (String × String)
  deriving DecidableEq, Repr

/-- The mapping row for a file version, if any (`file_version_id` is the
primary key, so at most one row matches). -/
def mappingOf (db : BridgeDB) (fv : Nat) : Option Mapping :=
  db.mappings.find? (fun m => decide (m.fileVersionId = fv))

/-- Its status, if the row exists. -/
def statusOf (db : BridgeDB) (fv : Nat) : Option MappingStatus :=
  (mappingOf db fv).map (fun m => m.status)

/-- The `INSERT ... ON CONFLICT (file_version_id) DO UPDATE SET status =
'pending'` of `TriggerImport`. -/
def upsertPending (db : BridgeDB) (fv : Nat) : BridgeDB :=
  if db.mappings.any (fun m => decide (m.fileVersionId = fv)) then
    { db with mappings := db.mappings.map (fun m =>
        if m.fileVersionId = fv then { m with status := .pending } else m) }
  else
    { db with mappings :=
        { fileVersionId := fv, modelId := "", objectId := "",
          status := .pending, errorMessage := "" } :: db.mappings }

/-- Model of `UPDATE ... SET speckle_model_id = $1, status = 'processing'`. -/
def setProcessing (db : BridgeDB) (fv : Nat) (mid : String) : BridgeDB :=
  { db with mappings := db.mappings.map (fun m =>
      if m.fileVersionId = fv then
        { m with modelId := mid, status := .processing } else m) }

/-- Model of `updateMappingError`: `UPDATE ... SET status = 'error',
error_message = $1`. -/
def setError (db : BridgeDB) (fv : Nat) (msg : String) : BridgeDB :=
  { db with mappings := db.mappings.map (fun m =>
      if m.fileVersionId = fv then
        { m with status := .error, errorMessage := msg } else m) }

/-- Model of `UPDATE ... SET status = 'ready', speckle_object_id = $1`. -/
def setReady (db : BridgeDB) (fv : Nat) (oid : String) : BridgeDB :=
  { db with mappings := db.mappings.map (fun m =>
      if m.fileVersionId = fv then
        { m with status := .ready, objectId := oid } else m) }

/-- What one poll tick observes from the Speckle GraphQL endpoint: an
HTTP failure, or the model's version list (each item's
`referencedObject`). -/
inductive PollObs
  | httpErr
  | versions (items : List String)

/-- Model of `checkImportStatus`: an HTTP failure propagates as an error; a
non-empty version list means `ready` with the newest version's referenced
object; an empty list means still `processing`.  (The source never
returns `"error"` from this helper.) -/
def checkImportStatus : PollObs → Option (String × String)
  | .httpErr => none
  | .versions [] => some ("processing", "")
  | .versions (o :: _) => some ("ready", o)

/-- Model of `pollImportStatus`: `ticks` is the number of 5-second ticker firings
remaining before the 10-minute timeout channel fires (at most 120); the
observation for the tick with `k` ticks remaining after it is `obs k`.
An observation error is skipped (`continue`); `ready`/`error` write the
terminal status and stop; the timeout writes `error` with the timeout
message and stops.  (The `ctx.Done` branch is dead: the loop is started
with a background context that is never cancelled.) -/
def pollImportStatus (obs : Nat → PollObs) : Nat → BridgeDB → Nat → String → BridgeDB
  | 0, db, fv, _ => setError db fv "import timed out"
  | k + 1, db, fv, mid =>
    match checkImportStatus (obs k) with
    | none => pollImportStatus obs k db fv mid
    | some st =>
      if st.1 = "ready" then setReady db fv st.2
      else if st.1 = "error" then setError db fv "speckle import failed"
      else pollImportStatus obs k db fv mid

/-- The environment of one `TriggerImport` run: the outcome of the
model-creation GraphQL call, of the file upload to Speckle, and the
stream of poll observations with the tick budget before timeout. -/
structure BridgeEnv where
  createModel : Except String String
  uploadErr : Option String
  obs : Nat → PollObs
  ticks : Nat

/-- Model of `TriggerImport(fileVersionID, ...)`: upsert the `pending` mapping;
on model creation move to `processing` (or to `error` with the failure
message); on upload failure move to `error`; otherwise hand off to the
poll loop. -/
def TriggerImport (env : BridgeEnv) (db : BridgeDB) (fv : Nat) : BridgeDB :=
  let db1 := upsertPending db fv
  match env.createModel with
  | .error e => setError db1 fv e
  | .ok mid =>
    let db2 := setProcessing db1 fv mid
    match env.uploadErr with
    | some e => setError db2 fv e
    | none => pollImportStatus env.obs env.ticks db2 fv mid

/-- The database snapshots after each write a `TriggerImport` run makes
to the mapping of `fv` (the poll loop makes exactly one write: its ticks
either skip or terminate the loop). -/
def runStates (env : BridgeEnv) (db : BridgeDB) (fv : Nat) : List BridgeDB :=
  let db1 := upsertPending db fv
  match env.createModel with
  | .error e => [db1, setError db1 fv e]
  | .ok mid =>
    let db2 := setProcessing db1 fv mid
    match env.uploadErr with
    | some e => [db1, db2, setError db2 fv e]
    | none => [db1, db2, pollImportStatus env.obs env.ticks db2 fv mid]

/-- The transitions the specification allows for one mapping:
created as `pending`, `pending → processing`, `pending → error`,
`processing → ready`, `processing → error`; `ready` and `error` are
terminal. -/
def allowedStep : Option MappingStatus → Option MappingStatus → Prop
  | none, some .pending => True
  | some .pending, some .processing => True
  | some .pending, some .error => True
  | some .processing, some .ready => True
  | some .processing, some .error => True
  | _, _ => False

/-- An observation that shows no completed version: an HTTP failure or an
empty version list. -/
def nonTerminalObs : PollObs → Prop
  | .httpErr => True
  | .versions items => items = []

end ValvX.Bridge

namespace ValvX.Client

/-- The operation sequence of the first concurrency-ceiling
counterexample: enqueue four files (three start, one queues), pause the
first (the freed slot immediately starts the fourth), then resume the
first. -/
def ceilingCexOps : List QOp :=
  [.add [(0, "a.ifc", 100), (1, "b.ifc", 100), (2, "c.ifc", 100), (3, "d.ifc", 100)],
   .pause 0, .resume 0]

/-- The operation sequence of the second concurrency-ceiling
counterexample, using pause alone: enqueue five files (three start, two
queue), then pause the first twice.  `pauseUpload` keeps the tus
instance in the map, so the second pause passes the
`tusUpload && file` guard again, decrements `activeUploads` a second
time for the same item, and `processQueue` fills both phantom slots. -/
def doublePauseCexOps : List QOp :=
  [.add [(0, "a.ifc", 100), (1, "b.ifc", 100), (2, "c.ifc", 100), (3, "d.ifc", 100),
         (4, "e.ifc", 100)],
   .pause 0, .pause 0]

/-- A batch with one item that failed mid-transfer: 5242880 bytes
(= the last acknowledged durable offset) were already confirmed before
the error.  The tus instance was dropped by the `onError` callback. -/
def retryCexState : QueueState :=
  { files := [{ id := 0, name := "m.ifc", status := .error, progress := 50,
                bytesUploaded := 5242880, bytesTotal := 10485760,
                errMsg := some "network failure" }],
    activeUploads := 0, instances := [] }

/-- Concrete sample/batch data for the throughput witness: two samples
inside the 5-second window, one file of 10000 bytes with 1000 uploaded. -/
def demoSamples : List SpeedSample := [⟨6000, 0⟩, ⟨8000, 1000⟩]

/-- The single file of the throughput witness. -/
def demoFiles : List UploadFile :=
  [{ id := 0, name := "x.ifc", status := .uploading, progress := 10,
     bytesUploaded := 1000, bytesTotal := 10000, errMsg := none }]

/-- The fields of an upload item that record transfer progress (identity,
uploaded bytes, progress percentage, last error). -/
def fileRecord (f : UploadFile) : Nat × Nat × Rat × Option String :=
  (f.id, f.bytesUploaded, f.progress, f.errMsg)

/-- States reachable through the queue operations with well-behaved
inputs: enqueued ids are fresh and distinct (the source generates them
with `crypto.randomUUID`), and `pause` targets an item that is actually
uploading.  `resume` is deliberately absent: it is the operation shown by
the counterexample to break the concurrency ceiling. -/
inductive ReachableSafe : QueueState → Prop
  | init : ReachableSafe initState
  | add (s : QueueState) (nf : List (Nat × String × Nat))
      (hids : (nf.map Prod.fst).Nodup)
      (hfresh : ∀ i ∈ nf.map Prod.fst, i ∉ ids s.files) :
      ReachableSafe s → ReachableSafe (addFiles s nf)
  | pause (s : QueueState) (id : Nat) (hup : statusOf s id = some .uploading) :
      ReachableSafe s → ReachableSafe (pauseUpload s id)
  | retry (s : QueueState) (id : Nat) :
      ReachableSafe s → ReachableSafe (retryUpload s id)
  | remove (s : QueueState) (id : Nat) :
      ReachableSafe s → ReachableSafe (removeUpload s id)
  | finishOk (s : QueueState) (id : Nat) :
      ReachableSafe s → ReachableSafe (onSuccess s id)
  | finishErr (s : QueueState) (id : Nat) (msg : String) :
      ReachableSafe s → ReachableSafe (onError s id msg)
  | cancel (s : QueueState) :
      ReachableSafe s → ReachableSafe (cancelAll s)

/-- The queue invariant: ids are distinct, the `activeUploads` counter
agrees with the number of items in `uploading` status, and that number
respects the ceiling. -/
def QueueInv (s : QueueState) : Prop :=
  (ids s.files).Nodup ∧
  s.activeUploads = (countUploading s.files : Int) ∧
  (countUploading s.files : Int) ≤ maxParallelUploads

/-- A four-file batch used to witness the ceiling theorem. -/
def demoBatch : List (Nat × String × Nat) :=
  [(0, "a.ifc", 100), (1, "b.ifc", 100), (2, "c.ifc", 100), (3, "d.ifc", 100)]

/-- A mixed-status batch used to witness `cancelAll`'s behaviour. -/
def cancelDemoState : QueueState :=
  { files :=
      [{ id := 0, name := "a", status := .uploading, progress := 50,
         bytesUploaded := 50, bytesTotal := 100, errMsg := none },
       { id := 1, name := "b", status := .queued, progress := 0,
         bytesUploaded := 0, bytesTotal := 100, errMsg := none },
       { id := 2, name := "c", status := .complete, progress := 100,
         bytesUploaded := 100, bytesTotal := 100, errMsg := none },
       { id := 3, name := "d", status := .error, progress := 20,
         bytesUploaded := 20, bytesTotal := 100, errMsg := some "boom" }],
    activeUploads := 1, instances := [0] }

end ValvX.Client

namespace ValvX.Endpoint

/-- The production configuration values: 5 GB max size, 5 MB chunks. -/
def demoConfig : Config := { maxUploadSize := 5368709120, chunkSize := 5242880 }

end ValvX.Endpoint

namespace ValvX.Registrar

/-- An environment in which every database interaction succeeds. -/
def envAllOk : TxEnv :=
  { beginOk := true, fileOk := true, versionOk := true,
    linkOk := true, commitOk := true }

/-- An environment in which only the folder-link insert fails. -/
def envLinkFails : TxEnv :=
  { beginOk := true, fileOk := true, versionOk := true,
    linkOk := false, commitOk := true }

/-- A concrete completion event for session `sess-1`. -/
def demoEvent : CompletionEvent :=
  { sessionId := "sess-1", filename := "model.ifc", extMeta := "",
    folderId := "f9", creatorIdMeta := "u7", creatorIdAlt := "",
    size := 10485760 }

/-- A second completion event, for a different session. -/
def demoEvent2 : CompletionEvent :=
  { sessionId := "sess-2", filename := "site.ifc", extMeta := "",
    folderId := "root", creatorIdMeta := "", creatorIdAlt := "u8",
    size := 2048 }

/-- The registrar's initial state: empty catalog, fresh id source. -/
def st0 : RegState := { catalog := ⟨[], [], []⟩, nextId := 0 }

/-- The environment verdicts under which one `onUploadComplete` run
commits: every checked interaction succeeds, and the folder link — when
one is wanted — is accepted as well. -/
def regSuccess (env : TxEnv) (ev : CompletionEvent) : Prop :=
  env.beginOk = true ∧ env.fileOk = true ∧ env.versionOk = true ∧
  (wantsLink ev → env.linkOk = true) ∧ env.commitOk = true

instance (env : TxEnv) (ev : CompletionEvent) : Decidable (regSuccess env ev) :=
  inferInstanceAs (Decidable (And _ _))

end ValvX.Registrar

namespace ValvX.Bridge

/-- A bridge environment whose remote job succeeds on the third-to-last
tick. -/
def envReady : BridgeEnv :=
  { createModel := .ok "m1", uploadErr := none,
    obs := fun k => if k = 2 then .versions ["obj-9"] else .versions [],
    ticks := 5 }

/-- A bridge environment whose remote job never reaches a terminal
state: every poll observes an empty version list. -/
def envNever : BridgeEnv :=
  { createModel := .ok "m1", uploadErr := none,
    obs := fun _ => .versions [], ticks := 120 }

/-- A database holding one upload record in `complete` status and no
mapping rows. -/
def demoDB : BridgeDB := { mappings := [], uploads := [("u1", "complete")] }

/-- The same database with the mapping for file version 1 already in
`processing` (the state from which the poll loop runs). -/
def demoProcessingDB : BridgeDB :=
  { mappings := [⟨1, "m1", "", .processing, ""⟩],
    uploads := [("u1", "complete")] }

end ValvX.Bridge

/-!
## Claims

Each claim of the specification is settled by one theorem below; helper
lemmas carry the inductive content.
-/

/-- C1 (code bug): the specification requires send-chunk to compare the
caller-supplied offset with the session's durable offset — `409
OffsetConflict` on mismatch, append-and-advance on match.  The
`handlePatch` of the simplified in-repo endpoint (its own comments defer
to the production tusd handler) does neither: a stale-offset request for
session `u1` (caller offset 5242880, durable offset 0) is answered `204`
with `Upload-Offset` equal to the chunk length, and a matching-offset
request for session `u2` (both offsets 5242880) is answered with offset
5242880 instead of 10485760 — the session store is never read or
advanced in either case. -/
theorem claim_C1_stub_ignores_offset :
    (ValvX.Endpoint.handlePatch ValvX.Endpoint.demoConfig
        { sessions := [{ id := "u1", totalSize := 10485760, durableOffset := 0 }] }
        { pathParts := ["", "api", "uploads", "u1"],
          uploadOffsetHeader := 5242880, contentLength := 5242880 }
      = ({ status := 204, uploadOffset := some 5242880 },
         { sessions := [{ id := "u1", totalSize := 10485760, durableOffset := 0 }] }))
    ∧ (ValvX.Endpoint.handlePatch ValvX.Endpoint.demoConfig
        { sessions := [{ id := "u2", totalSize := 10485760, durableOffset := 5242880 }] }
        { pathParts := ["", "api", "uploads", "u2"],
          uploadOffsetHeader := 5242880, contentLength := 5242880 }
      = ({ status := 204, uploadOffset := some 5242880 },
         { sessions := [{ id := "u2", totalSize := 10485760, durableOffset := 5242880 }] })) := by
  exact ⟨rfl, rfl⟩

/-- C7 (code bug): after a pause, resume re-queries the session offset
via HEAD, but `handleHead` — against its own "return current offset for
resume" comment — answers `Upload-Offset: 0` for a session whose durable
offset is 5242880, so the resumed transfer restarts at byte 0 and
re-sends already-durable bytes. -/
theorem claim_C7_head_reports_zero :
    ValvX.Endpoint.handleHead
        { sessions := [{ id := "u1", totalSize := 10485760, durableOffset := 5242880 }] }
        ["", "api", "uploads", "u1"]
      = { status := 200, uploadOffset := 0, uploadLength := 0 }
    ∧ (5242880 : Nat) ≠ 0 := by
  exact ⟨rfl, by decide⟩

/-- C3 (counterexample): the claimed bound of `MAX_PARALLEL_UPLOADS = 3`
concurrent active transfers over all queue operations is violated by two
independent sequences.  First, resume: after enqueueing four files,
pausing one active transfer (which promotes the queued fourth into the
freed slot) and then resuming it, four items are in `uploading` status —
`resumeUpload` increments the counter and restarts the transfer without
any ceiling check.  Second, pause alone: after enqueueing five files,
pausing the first item twice leaves four items in `uploading` status —
`pauseUpload` has no status check and keeps the tus instance, so the
second pause of the already-paused item decrements `activeUploads`
again and the scheduler starts an extra upload into the phantom slot. -/
theorem claim_C3_counterexample :
    (¬ ((ValvX.Client.countUploading
          (ValvX.Client.applyOps ValvX.Client.initState ValvX.Client.ceilingCexOps).files : Int)
        ≤ ValvX.Client.maxParallelUploads)) ∧
    (¬ ((ValvX.Client.countUploading
          (ValvX.Client.applyOps ValvX.Client.initState ValvX.Client.doublePauseCexOps).files : Int)
        ≤ ValvX.Client.maxParallelUploads)) := by
  exact ⟨by decide, by decide⟩

/-- C8 (counterexample): the claim says retry resets the item's recorded
progress to the offset queried from the session (here 5242880 bytes were
already acknowledged durable, so that offset is non-zero).  The code
queries nothing: `retryUpload` sets `progress = 0` and
`bytesUploaded = 0`, so after retrying the failed item its recorded
uploaded-byte count is 0, not 5242880. -/
theorem claim_C8_counterexample :
    ((ValvX.Client.retryUpload ValvX.Client.retryCexState 0).files.map
        (fun f => (f.bytesUploaded, f.progress)) = [(0, 0)])
    ∧ (5242880 : Nat) ≠ 0 := by
  exact ⟨by decide, by decide⟩

/-- C2 (counterexample): `onUploadComplete` generates fresh identifiers
and inserts unconditionally — there is no idempotency key tying the
catalog rows to the session.  Processing the completion event of session
`sess-1` twice therefore creates two catalog entries, refuting the claim
that exactly one entry is created even if the completion event is
delivered or processed more than once. -/
theorem claim_C2_counterexample :
    ValvX.Registrar.entriesFor
        (ValvX.Registrar.processEvents ValvX.Registrar.envAllOk ValvX.Registrar.st0
          [ValvX.Registrar.demoEvent, ValvX.Registrar.demoEvent]).catalog "sess-1" = 2
    ∧ (2 : Nat) ≠ 1 := by
  exact ⟨by decide, by decide⟩

namespace ValvX.Client

/-- Everything `markUploading` leaves untouched. -/
theorem fileRecord_markUploading (f : UploadFile) :
    fileRecord (markUploading f) = fileRecord f := rfl

/-- Updating statuses through `setFile` never changes the recorded
progress fields. -/
theorem map_fileRecord_setFile (fs : List UploadFile) (id : Nat)
    (g : UploadFile → UploadFile) (hg : ∀ f, fileRecord (g f) = fileRecord f) :
    (setFile fs id g).map fileRecord = fs.map fileRecord := by
  unfold setFile
  rw [List.map_map]
  apply List.map_congr_left
  intro f _
  by_cases h : f.id = id <;> simp [h, hg]

/-- The queue scheduler only flips statuses from `queued` to
`uploading`; it never touches the recorded progress of any item. -/
theorem processQueueAux_fileRecord (n : Nat) :
    ∀ s : QueueState, (processQueueAux n s).files.map fileRecord = s.files.map fileRecord := by
  induction n with
  | zero => intro s; rfl
  | succ n ih =>
    intro s
    unfold processQueueAux
    by_cases hlt : s.activeUploads < maxParallelUploads
    · rw [if_pos hlt]
      cases hf : s.files.find? (fun f => decide (f.status = .queued)) with
      | none => rfl
      | some f =>
        rw [ih (startUpload s f)]
        exact map_fileRecord_setFile _ _ _ fileRecord_markUploading
    · rw [if_neg hlt]

end ValvX.Client

/-- C10: `cancelAll` aborts every in-flight transfer (the instance map is
emptied), resets the active-transfer counter to zero, keeps every item in
the batch with its identity and uploaded-byte count, moves every
`uploading` or `queued` item to `paused`, and leaves items in any other
status (`complete`, `error`, `paused`, `processing`) entirely unchanged. -/
theorem claim_C10_cancelAll (s : ValvX.Client.QueueState) :
    (ValvX.Client.cancelAll s).activeUploads = 0 ∧
    (ValvX.Client.cancelAll s).instances = [] ∧
    (ValvX.Client.cancelAll s).files.length = s.files.length ∧
    ∀ i (h : i < s.files.length) (h2 : i < (ValvX.Client.cancelAll s).files.length),
      ((ValvX.Client.cancelAll s).files.get ⟨i, h2⟩).id = (s.files.get ⟨i, h⟩).id ∧
      ((ValvX.Client.cancelAll s).files.get ⟨i, h2⟩).bytesUploaded
        = (s.files.get ⟨i, h⟩).bytesUploaded ∧
      ((s.files.get ⟨i, h⟩).status = .uploading ∨ (s.files.get ⟨i, h⟩).status = .queued →
        ((ValvX.Client.cancelAll s).files.get ⟨i, h2⟩).status = .paused) ∧
      ((s.files.get ⟨i, h⟩).status ≠ .uploading → (s.files.get ⟨i, h⟩).status ≠ .queued →
        (ValvX.Client.cancelAll s).files.get ⟨i, h2⟩ = s.files.get ⟨i, h⟩) := by
  refine ⟨rfl, rfl, by simp [ValvX.Client.cancelAll], ?_⟩
  intro i h h2
  have hget : (ValvX.Client.cancelAll s).files.get ⟨i, h2⟩
      = ValvX.Client.cancelFile (s.files.get ⟨i, h⟩) := by
    simp [ValvX.Client.cancelAll, List.getElem_map]
  rw [hget]
  unfold ValvX.Client.cancelFile
  by_cases hs : (s.files.get ⟨i, h⟩).status = .uploading
      ∨ (s.files.get ⟨i, h⟩).status = .queued
  · rw [if_pos hs]
    exact ⟨rfl, rfl, fun _ => rfl, fun h1 h2 => absurd hs (not_or.mpr ⟨h1, h2⟩)⟩
  · rw [if_neg hs]
    exact ⟨rfl, rfl, fun hc => absurd hc hs, fun _ _ => rfl⟩

/-- C10 witness: on the mixed-status demo batch, `cancelAll` zeroes the
counter and moves the first (uploading) item to `paused`. -/
theorem claim_C10_witness :
    (ValvX.Client.cancelAll ValvX.Client.cancelDemoState).activeUploads = 0 ∧
    ((ValvX.Client.cancelAll ValvX.Client.cancelDemoState).files.get
        ⟨0, by decide⟩).status = ValvX.Client.UploadStatus.paused := by
  refine ⟨(claim_C10_cancelAll ValvX.Client.cancelDemoState).1, ?_⟩
  have h := (claim_C10_cancelAll ValvX.Client.cancelDemoState).2.2.2 0
    (by decide) (by decide)
  exact h.2.2.1 (Or.inl (by decide))

namespace ValvX.Client

/-- Filtering to the trailing window is idempotent. -/
theorem filter_inWindow_idem (now : Rat) (samples : List SpeedSample) :
    (samples.filter (inWindow now)).filter (inWindow now)
      = samples.filter (inWindow now) := by
  apply List.filter_eq_self.mpr
  intro a ha
  exact (List.mem_filter.mp ha).2

end ValvX.Client

/-- C9: the throughput estimate is a function of the samples inside the
trailing 5-second window alone; it is 0 when fewer than two samples
remain in the window; the batch ETA equals
(total bytes − transferred bytes) / throughput whenever the throughput is
positive; and it is the unavailable sentinel 0 (the value the composable
reports for an unavailable ETA) whenever the throughput is not
positive — in particular when it is 0 for lack of data. -/
theorem claim_C9_eta (now : Rat) (samples : List ValvX.Client.SpeedSample)
    (fs : List ValvX.Client.UploadFile) :
    ValvX.Client.calculateSpeed now samples
      = ValvX.Client.calculateSpeed now (samples.filter (ValvX.Client.inWindow now)) ∧
    ((samples.filter (ValvX.Client.inWindow now)).length < 2 →
      ValvX.Client.calculateSpeed now samples = 0) ∧
    (0 < ValvX.Client.calculateSpeed now samples →
      ValvX.Client.batchEta now samples fs
        = ((ValvX.Client.totalBytes fs : Rat) - (ValvX.Client.uploadedBytes fs : Rat))
            / ValvX.Client.calculateSpeed now samples) ∧
    (ValvX.Client.calculateSpeed now samples ≤ 0 →
      ValvX.Client.batchEta now samples fs = 0) := by
  refine ⟨?_, ?_, ?_, ?_⟩
  · unfold ValvX.Client.calculateSpeed
    rw [ValvX.Client.filter_inWindow_idem]
  · intro hlen
    unfold ValvX.Client.calculateSpeed
    cases hl : samples.filter (ValvX.Client.inWindow now) with
    | nil => rfl
    | cons a t =>
      cases t with
      | nil => rfl
      | cons b r => rw [hl] at hlen; simp at hlen; omega
  · intro hpos
    unfold ValvX.Client.batchEta
    rw [if_pos hpos]
  · intro hnp
    unfold ValvX.Client.batchEta
    rw [if_neg (not_lt.mpr hnp)]

/-- The demo samples give a throughput of 500 bytes per second. -/
theorem calculateSpeed_demo :
    ValvX.Client.calculateSpeed 10000 ValvX.Client.demoSamples = 500 := by
  norm_num [ValvX.Client.calculateSpeed, ValvX.Client.demoSamples, ValvX.Client.inWindow,
    ValvX.Client.speedOfWindow, List.filter]

/-- C9 witness: two in-window samples 2 seconds apart with 1000 bytes of
progress give 500 B/s; with 9000 bytes remaining the ETA is 18 s. -/
theorem claim_C9_witness :
    ValvX.Client.batchEta 10000 ValvX.Client.demoSamples ValvX.Client.demoFiles = 18 := by
  have h := (claim_C9_eta 10000 ValvX.Client.demoSamples ValvX.Client.demoFiles).2.2.1
    (by rw [calculateSpeed_demo]; norm_num)
  rw [h, calculateSpeed_demo]
  norm_num [ValvX.Client.totalBytes, ValvX.Client.uploadedBytes, ValvX.Client.demoFiles]

/-- C8 (amended): retry applies only to items in `error` status — for an
absent id or an item in any other status the state is unchanged — and
for an `error` item it resets the item's recorded progress and
uploaded-byte count to zero (not to an offset queried from the session,
which the code never performs) and clears its error, leaving the
recorded progress of every other item untouched. -/
theorem claim_C8_amended (s : ValvX.Client.QueueState) (id : Nat) :
    (ValvX.Client.findFile s id = none → ValvX.Client.retryUpload s id = s) ∧
    (∀ f, ValvX.Client.findFile s id = some f →
      f.status ≠ ValvX.Client.UploadStatus.error → ValvX.Client.retryUpload s id = s) ∧
    (∀ f, ValvX.Client.findFile s id = some f →
      f.status = ValvX.Client.UploadStatus.error →
      (ValvX.Client.retryUpload s id).files.map ValvX.Client.fileRecord
        = s.files.map (fun g =>
            if g.id = id then (g.id, 0, 0, none) else ValvX.Client.fileRecord g)) := by
  refine ⟨?_, ?_, ?_⟩
  · intro hnone
    unfold ValvX.Client.retryUpload
    rw [hnone]
  · intro f hsome hne
    unfold ValvX.Client.retryUpload
    rw [hsome]
    simp only [if_neg hne]
  · intro f hsome herr
    unfold ValvX.Client.retryUpload
    rw [hsome]
    simp only [if_pos herr]
    unfold ValvX.Client.processQueue
    rw [ValvX.Client.processQueueAux_fileRecord]
    show (ValvX.Client.setFile s.files id ValvX.Client.markRetried).map ValvX.Client.fileRecord = _
    unfold ValvX.Client.setFile
    rw [List.map_map]
    apply List.map_congr_left
    intro g _
    by_cases h : g.id = id <;>
      simp [h, ValvX.Client.markRetried, ValvX.Client.fileRecord]

/-- C8 amended-claim witness: retrying the failed demo item zeroes its
recorded progress fields. -/
theorem claim_C8_amended_witness :
    (ValvX.Client.retryUpload ValvX.Client.retryCexState 0).files.map ValvX.Client.fileRecord
      = [(0, 0, 0, none)] := by
  have h := (claim_C8_amended ValvX.Client.retryCexState 0).2.2
    { id := 0, name := "m.ifc", status := .error, progress := 50,
      bytesUploaded := 5242880, bytesTotal := 10485760,
      errMsg := some "network failure" } (by decide) (by decide)
  exact h.trans (by decide)

namespace ValvX.Registrar

/-- When every database interaction of the run succeeds, the transaction
commits exactly the file row, the version row with sequence number 1,
and — iff a non-root destination folder was specified — the folder link,
and logs success. -/
theorem onUploadComplete_success (env : TxEnv) (st : RegState) (ev : CompletionEvent)
    (h : regSuccess env ev) :
    (onUploadComplete env st ev).1.catalog.files
        = st.catalog.files ++
          [{ id := st.nextId, name := stripDotExt ev.filename (deriveExt ev),
             ext := deriveExt ev, sessionId := ev.sessionId }] ∧
    (onUploadComplete env st ev).1.catalog.versions
        = st.catalog.versions ++
          [{ id := st.nextId + 1, number := 1, size := ev.size,
             fileId := st.nextId, creatorId := deriveCreator ev }] ∧
    (onUploadComplete env st ev).1.catalog.folderLinks
        = st.catalog.folderLinks ++
          (if wantsLink ev then [{ folderId := ev.folderId, fileId := st.nextId }] else []) ∧
    (onUploadComplete env st ev).2 = [.infoEntry "Created file record"] := by
  obtain ⟨hb, hf, hv, hl, hc⟩ := h
  by_cases hw : wantsLink ev
  · have hl2 := hl hw
    simp [onUploadComplete, txExec, txCommit, applyStmt, hb, hf, hv, hl2, hc, hw]
  · simp [onUploadComplete, txExec, txCommit, applyStmt, hb, hf, hv, hc, hw]

/-- When any database interaction of the run fails — including the
unchecked folder-link statement, whose failure aborts the transaction so
that the commit fails — nothing is persisted and an error is logged. -/
theorem onUploadComplete_failure (env : TxEnv) (st : RegState) (ev : CompletionEvent)
    (h : ¬ regSuccess env ev) :
    (onUploadComplete env st ev).1.catalog = st.catalog ∧
    ∃ stage msg, (onUploadComplete env st ev).2 = [.errorEntry stage msg] := by
  by_cases hb : env.beginOk = true
  case neg =>
    simp [onUploadComplete, hb]
  case pos =>
  by_cases hf : env.fileOk = true
  case neg =>
    simp [onUploadComplete, txExec, hb, hf]
  case pos =>
  by_cases hv : env.versionOk = true
  case neg =>
    simp [onUploadComplete, txExec, hb, hf, hv]
  case pos =>
  by_cases hw : wantsLink ev
  case pos =>
    by_cases hl : env.linkOk = true
    case neg =>
      simp [onUploadComplete, txExec, txCommit, hb, hf, hv, hl, hw]
    case pos =>
      by_cases hc : env.commitOk = true
      case pos => exact absurd ⟨hb, hf, hv, fun _ => hl, hc⟩ h
      case neg =>
        simp [onUploadComplete, txExec, txCommit, hb, hf, hv, hl, hw, hc]
  case neg =>
    by_cases hc : env.commitOk = true
    case pos => exact absurd ⟨hb, hf, hv, fun hk => absurd hk hw, hc⟩ h
    case neg =>
      simp [onUploadComplete, txExec, txCommit, hb, hf, hv, hw, hc]

/-- Each processed completion event adds exactly one catalog entry for
its session when its transaction succeeds, and none otherwise. -/
theorem entriesFor_onUploadComplete (env : TxEnv) (st : RegState)
    (ev : CompletionEvent) (sid : String) :
    entriesFor (onUploadComplete env st ev).1.catalog sid
      = entriesFor st.catalog sid
        + (if regSuccess env ev ∧ ev.sessionId = sid then 1 else 0) := by
  by_cases hs : regSuccess env ev
  · have h := (onUploadComplete_success env st ev hs).1
    unfold entriesFor
    rw [h, List.countP_append]
    by_cases he : ev.sessionId = sid <;> simp [hs, he]
  · have h := (onUploadComplete_failure env st ev hs).1
    unfold entriesFor
    rw [h]
    simp [hs]

end ValvX.Registrar

/-- C4: for every completion event, `onUploadComplete` runs one atomic
transaction: when every database interaction succeeds it inserts exactly
the File row (name and extension derived from the metadata), the
FileVersion row with sequence number 1, and — if and only if a
destination folder other than `""`/`"root"` was specified — the
folder-link row, logging success; when any interaction fails (a checked
insert, the unchecked folder-link statement — whose failure aborts the
transaction so the commit persists nothing — or the commit itself), no
row of the three is persisted and a failure is logged. -/
theorem claim_C4_atomic_registration (env : ValvX.Registrar.TxEnv)
    (st : ValvX.Registrar.RegState) (ev : ValvX.Registrar.CompletionEvent) :
    (ValvX.Registrar.regSuccess env ev →
      (ValvX.Registrar.onUploadComplete env st ev).1.catalog.files
          = st.catalog.files ++
            [{ id := st.nextId,
               name := ValvX.Registrar.stripDotExt ev.filename (ValvX.Registrar.deriveExt ev),
               ext := ValvX.Registrar.deriveExt ev, sessionId := ev.sessionId }] ∧
      (ValvX.Registrar.onUploadComplete env st ev).1.catalog.versions
          = st.catalog.versions ++
            [{ id := st.nextId + 1, number := 1, size := ev.size,
               fileId := st.nextId, creatorId := ValvX.Registrar.deriveCreator ev }] ∧
      (ValvX.Registrar.onUploadComplete env st ev).1.catalog.folderLinks
          = st.catalog.folderLinks ++
            (if ValvX.Registrar.wantsLink ev then
              [{ folderId := ev.folderId, fileId := st.nextId }] else [])) ∧
    (¬ ValvX.Registrar.regSuccess env ev →
      (ValvX.Registrar.onUploadComplete env st ev).1.catalog = st.catalog ∧
      ∃ stage msg, (ValvX.Registrar.onUploadComplete env st ev).2
          = [ValvX.Registrar.LogEntry.errorEntry stage msg]) := by
  constructor
  · intro h
    have hs := ValvX.Registrar.onUploadComplete_success env st ev h
    exact ⟨hs.1, hs.2.1, hs.2.2.1⟩
  · intro h
    exact ValvX.Registrar.onUploadComplete_failure env st ev h

/-- C4 witness: the demo event (folder `f9`, creator `u7`) commits and
produces exactly the three expected rows. -/
theorem claim_C4_witness :
    (ValvX.Registrar.onUploadComplete ValvX.Registrar.envAllOk ValvX.Registrar.st0
        ValvX.Registrar.demoEvent).1.catalog.files
      = [{ id := 0, name := "model", ext := "ifc", sessionId := "sess-1" }] ∧
    (ValvX.Registrar.onUploadComplete ValvX.Registrar.envAllOk ValvX.Registrar.st0
        ValvX.Registrar.demoEvent).1.catalog.folderLinks
      = [{ folderId := "f9", fileId := 0 }] := by
  have h := (claim_C4_atomic_registration ValvX.Registrar.envAllOk ValvX.Registrar.st0
    ValvX.Registrar.demoEvent).1 (by decide)
  exact ⟨h.1.trans (by decide), h.2.2.trans (by decide)⟩

/-- C2 (amended): exactly one CatalogEntry is created per delivered
completion event whose transaction succeeds — the `CompleteUploads`
channel hands each acknowledged event to the registrar exactly once, so
a terminal session with one delivered event yields exactly one entry.
The insert itself is not idempotent: the entry count equals the number
of times the session's event appears in the processed stream, so a
duplicate delivery would create a second entry (see the
counterexample). -/
theorem claim_C2_amended (env : ValvX.Registrar.TxEnv) (st : ValvX.Registrar.RegState)
    (events : List ValvX.Registrar.CompletionEvent) (sid : String)
    (hok : ∀ ev ∈ events, ValvX.Registrar.regSuccess env ev) :
    ValvX.Registrar.entriesFor (ValvX.Registrar.processEvents env st events).catalog sid
      = ValvX.Registrar.entriesFor st.catalog sid
        + events.countP (fun ev => decide (ev.sessionId = sid)) := by
  induction events generalizing st with
  | nil => simp [ValvX.Registrar.processEvents]
  | cons e rest ih =>
    have h1 : ValvX.Registrar.processEvents env st (e :: rest)
        = ValvX.Registrar.processEvents env
            (ValvX.Registrar.onUploadComplete env st e).1 rest := rfl
    rw [h1, ih _ (fun ev hv => hok ev (List.mem_cons_of_mem _ hv)),
      ValvX.Registrar.entriesFor_onUploadComplete]
    have hse := hok e (List.mem_cons_self e rest)
    by_cases he : e.sessionId = sid <;> simp [hse, he, List.countP_cons] <;> omega

/-- C2 amended-claim witness: a stream with one completion event for
session `sess-1` (and one for another session) produces exactly one
catalog entry for `sess-1`. -/
theorem claim_C2_amended_witness :
    ValvX.Registrar.entriesFor
      (ValvX.Registrar.processEvents ValvX.Registrar.envAllOk ValvX.Registrar.st0
        [ValvX.Registrar.demoEvent, ValvX.Registrar.demoEvent2]).catalog "sess-1" = 1 := by
  have h := claim_C2_amended ValvX.Registrar.envAllOk ValvX.Registrar.st0
    [ValvX.Registrar.demoEvent, ValvX.Registrar.demoEvent2] "sess-1" (by decide)
  exact h.trans (by decide)

namespace ValvX.Bridge

/-- A keyed `UPDATE` rewrites the looked-up row through its update
function. -/
theorem find?_map_ite (l : List Mapping) (fv : Nat) (g : Mapping → Mapping)
    (hg : ∀ m, (g m).fileVersionId = m.fileVersionId) :
    (l.map (fun m => if m.fileVersionId = fv then g m else m)).find?
        (fun m => decide (m.fileVersionId = fv))
      = (l.find? (fun m => decide (m.fileVersionId = fv))).map g := by
  induction l with
  | nil => rfl
  | cons a t ih =>
    by_cases h : a.fileVersionId = fv
    · rw [List.map_cons, if_pos h,
        List.find?_cons_of_pos _ (by simp [hg, h]),
        List.find?_cons_of_pos _ (by simp [h])]
      rfl
    · rw [List.map_cons, if_neg h,
        List.find?_cons_of_neg _ (by simp [h]),
        List.find?_cons_of_neg _ (by simp [h]), ih]

/-- A keyed `UPDATE` leaves every other key's row unchanged. -/
theorem find?_map_ite_ne (l : List Mapping) (fv fv2 : Nat) (g : Mapping → Mapping)
    (hg : ∀ m, (g m).fileVersionId = m.fileVersionId) (hne : fv2 ≠ fv) :
    (l.map (fun m => if m.fileVersionId = fv then g m else m)).find?
        (fun m => decide (m.fileVersionId = fv2))
      = l.find? (fun m => decide (m.fileVersionId = fv2)) := by
  induction l with
  | nil => rfl
  | cons a t ih =>
    by_cases h : a.fileVersionId = fv
    · rw [List.map_cons, if_pos h,
        List.find?_cons_of_neg _ (by simp [hg, h, hne.symm]),
        List.find?_cons_of_neg _ (by simp [h, hne.symm]), ih]
    · rw [List.map_cons, if_neg h]
      by_cases h2 : a.fileVersionId = fv2
      · rw [List.find?_cons_of_pos _ (by simp [h2]),
          List.find?_cons_of_pos _ (by simp [h2])]
      · rw [List.find?_cons_of_neg _ (by simp [h2]),
          List.find?_cons_of_neg _ (by simp [h2]), ih]

/-- Model of `setProcessing` through the lens of the updated key. -/
theorem mappingOf_setProcessing (db : BridgeDB) (fv : Nat) (mid : String) :
    mappingOf (setProcessing db fv mid) fv
      = (mappingOf db fv).map (fun m => { m with modelId := mid, status := .processing }) :=
  find?_map_ite db.mappings fv _ (fun _ => rfl)

/-- Model of `setError` through the lens of the updated key. -/
theorem mappingOf_setError (db : BridgeDB) (fv : Nat) (msg : String) :
    mappingOf (setError db fv msg) fv
      = (mappingOf db fv).map (fun m => { m with status := .error, errorMessage := msg }) :=
  find?_map_ite db.mappings fv _ (fun _ => rfl)

/-- Model of `setReady` through the lens of the updated key. -/
theorem mappingOf_setReady (db : BridgeDB) (fv : Nat) (oid : String) :
    mappingOf (setReady db fv oid) fv
      = (mappingOf db fv).map (fun m => { m with status := .ready, objectId := oid }) :=
  find?_map_ite db.mappings fv _ (fun _ => rfl)

/-- Model of `setProcessing` does not touch other keys. -/
theorem mappingOf_setProcessing_ne (db : BridgeDB) (fv fv2 : Nat) (mid : String)
    (hne : fv2 ≠ fv) :
    mappingOf (setProcessing db fv mid) fv2 = mappingOf db fv2 :=
  find?_map_ite_ne db.mappings fv fv2 _ (fun _ => rfl) hne

/-- Model of `setError` does not touch other keys. -/
theorem mappingOf_setError_ne (db : BridgeDB) (fv fv2 : Nat) (msg : String)
    (hne : fv2 ≠ fv) :
    mappingOf (setError db fv msg) fv2 = mappingOf db fv2 :=
  find?_map_ite_ne db.mappings fv fv2 _ (fun _ => rfl) hne

/-- Model of `setReady` does not touch other keys. -/
theorem mappingOf_setReady_ne (db : BridgeDB) (fv fv2 : Nat) (oid : String)
    (hne : fv2 ≠ fv) :
    mappingOf (setReady db fv oid) fv2 = mappingOf db fv2 :=
  find?_map_ite_ne db.mappings fv fv2 _ (fun _ => rfl) hne

/-- For a fresh file version the upsert takes its insert branch and the
new row is `pending`. -/
theorem mappingOf_upsertPending_fresh (db : BridgeDB) (fv : Nat)
    (h : mappingOf db fv = none) :
    mappingOf (upsertPending db fv) fv
      = some { fileVersionId := fv, modelId := "", objectId := "",
               status := .pending, errorMessage := "" } := by
  have hnone := List.find?_eq_none.mp h
  have hany : db.mappings.any (fun m => decide (m.fileVersionId = fv)) = false := by
    rw [List.any_eq_false]
    intro m hm
    simpa using hnone m hm
  unfold upsertPending
  rw [hany]
  simp only [Bool.false_eq_true, if_false]
  exact List.find?_cons_of_pos _ (by simp)

/-- For a fresh file version the upsert's inserted row does not shadow
any other key. -/
theorem mappingOf_upsertPending_fresh_ne (db : BridgeDB) (fv fv2 : Nat)
    (h : mappingOf db fv = none) (hne : fv2 ≠ fv) :
    mappingOf (upsertPending db fv) fv2 = mappingOf db fv2 := by
  have hnone := List.find?_eq_none.mp h
  have hany : db.mappings.any (fun m => decide (m.fileVersionId = fv)) = false := by
    rw [List.any_eq_false]
    intro m hm
    simpa using hnone m hm
  unfold upsertPending
  rw [hany]
  simp only [Bool.false_eq_true, if_false]
  exact List.find?_cons_of_neg _ (by simp [hne.symm])

/-- No bridge write touches the upload records: `upsertPending`. -/
theorem uploads_upsertPending (db : BridgeDB) (fv : Nat) :
    (upsertPending db fv).uploads = db.uploads := by
  unfold upsertPending
  split <;> rfl

/-- No bridge write touches the upload records: the poll loop. -/
theorem uploads_poll (obs : Nat → PollObs) :
    ∀ (k : Nat) (db : BridgeDB) (fv : Nat) (mid : String),
      (pollImportStatus obs k db fv mid).uploads = db.uploads := by
  intro k
  induction k with
  | zero => intro db fv mid; rfl
  | succ k ih =>
    intro db fv mid
    show (match checkImportStatus (obs k) with
      | none => pollImportStatus obs k db fv mid
      | some st =>
        if st.1 = "ready" then setReady db fv st.2
        else if st.1 = "error" then setError db fv "speckle import failed"
        else pollImportStatus obs k db fv mid).uploads = db.uploads
    cases checkImportStatus (obs k) with
    | none => exact ih db fv mid
    | some st =>
      by_cases h1 : st.1 = "ready"
      · simp only [if_pos h1]; rfl
      · by_cases h2 : st.1 = "error"
        · simp only [if_neg h1, if_pos h2]; rfl
        · simp only [if_neg h1, if_neg h2]; exact ih db fv mid

/-- The poll loop leaves other keys' mappings unchanged. -/
theorem poll_frame (obs : Nat → PollObs) :
    ∀ (k : Nat) (db : BridgeDB) (fv : Nat) (mid : String) (fv2 : Nat), fv2 ≠ fv →
      mappingOf (pollImportStatus obs k db fv mid) fv2 = mappingOf db fv2 := by
  intro k
  induction k with
  | zero => intro db fv mid fv2 hne; exact mappingOf_setError_ne db fv fv2 _ hne
  | succ k ih =>
    intro db fv mid fv2 hne
    show mappingOf (match checkImportStatus (obs k) with
      | none => pollImportStatus obs k db fv mid
      | some st =>
        if st.1 = "ready" then setReady db fv st.2
        else if st.1 = "error" then setError db fv "speckle import failed"
        else pollImportStatus obs k db fv mid) fv2 = mappingOf db fv2
    cases checkImportStatus (obs k) with
    | none => exact ih db fv mid fv2 hne
    | some st =>
      by_cases h1 : st.1 = "ready"
      · simp only [if_pos h1]; exact mappingOf_setReady_ne db fv fv2 _ hne
      · by_cases h2 : st.1 = "error"
        · simp only [if_neg h1, if_pos h2]; exact mappingOf_setError_ne db fv fv2 _ hne
        · simp only [if_neg h1, if_neg h2]; exact ih db fv mid fv2 hne

/-- Whatever the observations, the poll loop ends with the mapping in a
terminal state (`ready` or `error`), provided the mapping exists. -/
theorem poll_terminal (obs : Nat → PollObs) :
    ∀ (k : Nat) (db : BridgeDB) (fv : Nat) (mid : String) (m0 : Mapping),
      mappingOf db fv = some m0 →
      statusOf (pollImportStatus obs k db fv mid) fv = some .ready ∨
      statusOf (pollImportStatus obs k db fv mid) fv = some .error := by
  intro k
  induction k with
  | zero =>
    intro db fv mid m0 hm
    right
    show statusOf (setError db fv "import timed out") fv = some .error
    rw [statusOf, mappingOf_setError, hm]
    rfl
  | succ k ih =>
    intro db fv mid m0 hm
    have hunf : pollImportStatus obs (k + 1) db fv mid
        = (match checkImportStatus (obs k) with
          | none => pollImportStatus obs k db fv mid
          | some st =>
            if st.1 = "ready" then setReady db fv st.2
            else if st.1 = "error" then setError db fv "speckle import failed"
            else pollImportStatus obs k db fv mid) := rfl
    rw [hunf]
    cases checkImportStatus (obs k) with
    | none => exact ih db fv mid m0 hm
    | some st =>
      by_cases h1 : st.1 = "ready"
      · left
        simp only [if_pos h1]
        rw [statusOf, mappingOf_setReady, hm]
        rfl
      · by_cases h2 : st.1 = "error"
        · right
          simp only [if_neg h1, if_pos h2]
          rw [statusOf, mappingOf_setError, hm]
          rfl
        · simp only [if_neg h1, if_neg h2]
          exact ih db fv mid m0 hm

/-- When no poll tick before the timeout observes a terminal remote
state, the loop runs into the timeout and records the timeout error. -/
theorem poll_nonterminal (obs : Nat → PollObs) :
    ∀ (k : Nat) (db : BridgeDB) (fv : Nat) (mid : String),
      (∀ j, j < k → nonTerminalObs (obs j)) →
      pollImportStatus obs k db fv mid = setError db fv "import timed out" := by
  intro k
  induction k with
  | zero => intro db fv mid _; rfl
  | succ k ih =>
    intro db fv mid h
    have hk : nonTerminalObs (obs k) := h k (Nat.lt_succ_self k)
    have hrest : ∀ j, j < k → nonTerminalObs (obs j) :=
      fun j hj => h j (Nat.lt_trans hj (Nat.lt_succ_self k))
    show (match checkImportStatus (obs k) with
      | none => pollImportStatus obs k db fv mid
      | some st =>
        if st.1 = "ready" then setReady db fv st.2
        else if st.1 = "error" then setError db fv "speckle import failed"
        else pollImportStatus obs k db fv mid) = setError db fv "import timed out"
    cases hobs : obs k with
    | httpErr =>
      show pollImportStatus obs k db fv mid = _
      exact ih db fv mid hrest
    | versions items =>
      rw [hobs] at hk
      have : items = [] := hk
      subst this
      show (if ("processing" = "ready") then _
        else if ("processing" = "error") then _
        else pollImportStatus obs k db fv mid) = _
      rw [if_neg (by decide), if_neg (by decide)]
      exact ih db fv mid hrest

end ValvX.Bridge

/-- C6: if a mapping exists (the poll loop is entered with it in
`processing`) and no poll tick before the 10-minute timeout observes a
terminal remote state, the loop sets the mapping's status to `error`
with the timeout message `"import timed out"` and exits; the upload
records — in particular a `complete` upload status — are untouched. -/
theorem claim_C6_poll_timeout (obs : Nat → ValvX.Bridge.PollObs) (ticks : Nat)
    (db : ValvX.Bridge.BridgeDB) (fv : Nat) (mid : String) (m0 : ValvX.Bridge.Mapping)
    (hm : ValvX.Bridge.mappingOf db fv = some m0)
    (hnt : ∀ j, j < ticks → ValvX.Bridge.nonTerminalObs (obs j)) :
    ValvX.Bridge.statusOf (ValvX.Bridge.pollImportStatus obs ticks db fv mid) fv
        = some ValvX.Bridge.MappingStatus.error ∧
    (ValvX.Bridge.mappingOf (ValvX.Bridge.pollImportStatus obs ticks db fv mid) fv).map
        (fun m => m.errorMessage) = some "import timed out" ∧
    (ValvX.Bridge.pollImportStatus obs ticks db fv mid).uploads = db.uploads := by
  rw [ValvX.Bridge.poll_nonterminal obs ticks db fv mid hnt]
  refine ⟨?_, ?_, rfl⟩
  · rw [ValvX.Bridge.statusOf, ValvX.Bridge.mappingOf_setError, hm]
    rfl
  · rw [ValvX.Bridge.mappingOf_setError, hm]
    rfl

/-- C6 witness: 120 ticks of empty version lists drive the demo
`processing` mapping into `error "import timed out"` while the upload
stays `complete`. -/
theorem claim_C6_witness :
    ValvX.Bridge.statusOf
        (ValvX.Bridge.pollImportStatus (fun _ => ValvX.Bridge.PollObs.versions []) 120
          ValvX.Bridge.demoProcessingDB 1 "m1") 1
      = some ValvX.Bridge.MappingStatus.error ∧
    (ValvX.Bridge.pollImportStatus (fun _ => ValvX.Bridge.PollObs.versions []) 120
        ValvX.Bridge.demoProcessingDB 1 "m1").uploads = [("u1", "complete")] := by
  have h := claim_C6_poll_timeout (fun _ => ValvX.Bridge.PollObs.versions []) 120
    ValvX.Bridge.demoProcessingDB 1 "m1"
    { fileVersionId := 1, modelId := "m1", objectId := "",
      status := .processing, errorMessage := "" }
    (by rfl) (fun j hj => rfl)
  exact ⟨h.1, h.2.2⟩

/-- C5: starting from a fresh file-version id (the registrar passes a
freshly generated id, so no mapping row exists yet), a `TriggerImport`
run writes the mapping's status only along
`pending → processing → ready` or `pending/processing → error`: the
snapshots after each write form a chain of allowed transitions ending at
the run's final state, and the run never mutates the mapping of any
other file version — a re-upload, which gets a new file-version id,
creates a new mapping rather than changing an old one. -/
theorem claim_C5_mapping_transitions (env : ValvX.Bridge.BridgeEnv)
    (db : ValvX.Bridge.BridgeDB) (fv : Nat)
    (hfresh : ValvX.Bridge.mappingOf db fv = none) :
    List.Chain' ValvX.Bridge.allowedStep
      (none :: (ValvX.Bridge.runStates env db fv).map
        (fun d => ValvX.Bridge.statusOf d fv)) ∧
    (ValvX.Bridge.runStates env db fv).getLast?
        = some (ValvX.Bridge.TriggerImport env db fv) ∧
    (∀ fv2, fv2 ≠ fv → ∀ d ∈ ValvX.Bridge.runStates env db fv,
      ValvX.Bridge.mappingOf d fv2 = ValvX.Bridge.mappingOf db fv2) := by
  have hm1 := ValvX.Bridge.mappingOf_upsertPending_fresh db fv hfresh
  have hs1 : ValvX.Bridge.statusOf (ValvX.Bridge.upsertPending db fv) fv
      = some ValvX.Bridge.MappingStatus.pending := by
    rw [ValvX.Bridge.statusOf, hm1]; rfl
  have hf1 : ∀ fv2, fv2 ≠ fv →
      ValvX.Bridge.mappingOf (ValvX.Bridge.upsertPending db fv) fv2
        = ValvX.Bridge.mappingOf db fv2 :=
    fun fv2 hne => ValvX.Bridge.mappingOf_upsertPending_fresh_ne db fv fv2 hfresh hne
  rcases hcm : env.createModel with e | mid
  · have hruns : ValvX.Bridge.runStates env db fv
        = [ValvX.Bridge.upsertPending db fv,
           ValvX.Bridge.setError (ValvX.Bridge.upsertPending db fv) fv e] := by
      unfold ValvX.Bridge.runStates
      rw [hcm]
    have htr : ValvX.Bridge.TriggerImport env db fv
        = ValvX.Bridge.setError (ValvX.Bridge.upsertPending db fv) fv e := by
      unfold ValvX.Bridge.TriggerImport
      rw [hcm]
    have hs2 : ValvX.Bridge.statusOf
        (ValvX.Bridge.setError (ValvX.Bridge.upsertPending db fv) fv e) fv
        = some ValvX.Bridge.MappingStatus.error := by
      rw [ValvX.Bridge.statusOf, ValvX.Bridge.mappingOf_setError, hm1]; rfl
    refine ⟨?_, ?_, ?_⟩
    · rw [hruns]
      simp only [List.map_cons, List.map_nil]
      rw [hs1, hs2]
      simp [List.chain'_cons, ValvX.Bridge.allowedStep]
    · rw [hruns, htr]
      rfl
    · intro fv2 hne d hd
      rw [hruns] at hd
      simp only [List.mem_cons, List.not_mem_nil, or_false] at hd
      rcases hd with rfl | rfl
      · exact hf1 fv2 hne
      · rw [ValvX.Bridge.mappingOf_setError_ne _ _ _ _ hne]
        exact hf1 fv2 hne
  · have hm2 : ValvX.Bridge.mappingOf
        (ValvX.Bridge.setProcessing (ValvX.Bridge.upsertPending db fv) fv mid) fv
        = some { fileVersionId := fv, modelId := mid, objectId := "",
                 status := .processing, errorMessage := "" } := by
      rw [ValvX.Bridge.mappingOf_setProcessing, hm1]
      rfl
    have hs2 : ValvX.Bridge.statusOf
        (ValvX.Bridge.setProcessing (ValvX.Bridge.upsertPending db fv) fv mid) fv
        = some ValvX.Bridge.MappingStatus.processing := by
      rw [ValvX.Bridge.statusOf, hm2]
      rfl
    have hf2 : ∀ fv2, fv2 ≠ fv →
        ValvX.Bridge.mappingOf
          (ValvX.Bridge.setProcessing (ValvX.Bridge.upsertPending db fv) fv mid) fv2
          = ValvX.Bridge.mappingOf db fv2 := by
      intro fv2 hne
      rw [ValvX.Bridge.mappingOf_setProcessing_ne _ _ _ _ hne]
      exact hf1 fv2 hne
    rcases hue : env.uploadErr with _ | e
    · have hruns : ValvX.Bridge.runStates env db fv
          = [ValvX.Bridge.upsertPending db fv,
             ValvX.Bridge.setProcessing (ValvX.Bridge.upsertPending db fv) fv mid,
             ValvX.Bridge.pollImportStatus env.obs env.ticks
               (ValvX.Bridge.setProcessing (ValvX.Bridge.upsertPending db fv) fv mid)
               fv mid] := by
        unfold ValvX.Bridge.runStates
        rw [hcm, hue]
      have htr : ValvX.Bridge.TriggerImport env db fv
          = ValvX.Bridge.pollImportStatus env.obs env.ticks
              (ValvX.Bridge.setProcessing (ValvX.Bridge.upsertPending db fv) fv mid)
              fv mid := by
        unfold ValvX.Bridge.TriggerImport
        rw [hcm, hue]
      refine ⟨?_, ?_, ?_⟩
      · rw [hruns]
        simp only [List.map_cons, List.map_nil]
        rw [hs1, hs2]
        rcases ValvX.Bridge.poll_terminal env.obs env.ticks _ fv mid _ hm2 with hp | hp <;>
          rw [hp] <;>
          simp [List.chain'_cons, ValvX.Bridge.allowedStep]
      · rw [hruns, htr]
        rfl
      · intro fv2 hne d hd
        rw [hruns] at hd
        simp only [List.mem_cons, List.not_mem_nil, or_false] at hd
        rcases hd with rfl | rfl | rfl
        · exact hf1 fv2 hne
        · exact hf2 fv2 hne
        · rw [ValvX.Bridge.poll_frame env.obs env.ticks _ fv mid fv2 hne]
          exact hf2 fv2 hne
    · have hruns : ValvX.Bridge.runStates env db fv
          = [ValvX.Bridge.upsertPending db fv,
             ValvX.Bridge.setProcessing (ValvX.Bridge.upsertPending db fv) fv mid,
             ValvX.Bridge.setError
               (ValvX.Bridge.setProcessing (ValvX.Bridge.upsertPending db fv) fv mid)
               fv e] := by
        unfold ValvX.Bridge.runStates
        rw [hcm, hue]
      have htr : ValvX.Bridge.TriggerImport env db fv
          = ValvX.Bridge.setError
              (ValvX.Bridge.setProcessing (ValvX.Bridge.upsertPending db fv) fv mid)
              fv e := by
        unfold ValvX.Bridge.TriggerImport
        rw [hcm, hue]
      have hs3 : ValvX.Bridge.statusOf
          (ValvX.Bridge.setError
            (ValvX.Bridge.setProcessing (ValvX.Bridge.upsertPending db fv) fv mid) fv e) fv
          = some ValvX.Bridge.MappingStatus.error := by
        rw [ValvX.Bridge.statusOf, ValvX.Bridge.mappingOf_setError, hm2]
        rfl
      refine ⟨?_, ?_, ?_⟩
      · rw [hruns]
        simp only [List.map_cons, List.map_nil]
        rw [hs1, hs2, hs3]
        simp [List.chain'_cons, ValvX.Bridge.allowedStep]
      · rw [hruns, htr]
        rfl
      · intro fv2 hne d hd
        rw [hruns] at hd
        simp only [List.mem_cons, List.not_mem_nil, or_false] at hd
        rcases hd with rfl | rfl | rfl
        · exact hf1 fv2 hne
        · exact hf2 fv2 hne
        · rw [ValvX.Bridge.mappingOf_setError_ne _ _ _ _ hne]
          exact hf2 fv2 hne

/-- C5 witness: a fresh run with a successful model creation and a job
that becomes ready walks the chain
`none → pending → processing → ready` on the demo database. -/
theorem claim_C5_witness :
    List.Chain' ValvX.Bridge.allowedStep
      (none :: (ValvX.Bridge.runStates ValvX.Bridge.envReady ValvX.Bridge.demoDB 1).map
        (fun d => ValvX.Bridge.statusOf d 1)) :=
  (claim_C5_mapping_transitions ValvX.Bridge.envReady ValvX.Bridge.demoDB 1 (by rfl)).1

namespace ValvX.Client

/-- Unfolding `setFile` one element at a time. -/
theorem setFile_cons (a : UploadFile) (t : List UploadFile) (id : Nat)
    (g : UploadFile → UploadFile) :
    setFile (a :: t) id g = (if a.id = id then g a else a) :: setFile t id g := rfl

/-- Model of `setFile` with an absent id changes nothing. -/
theorem setFile_of_not_mem (fs : List UploadFile) (id : Nat)
    (g : UploadFile → UploadFile) (h : ∀ f ∈ fs, f.id ≠ id) :
    setFile fs id g = fs := by
  induction fs with
  | nil => rfl
  | cons a t ih =>
    rw [setFile_cons, if_neg (h a (List.mem_cons_self a t)),
      ih (fun f hf => h f (List.mem_cons_of_mem a hf))]

/-- Model of `setFile` with an id-preserving update preserves the id list. -/
theorem ids_setFile (fs : List UploadFile) (id : Nat) (g : UploadFile → UploadFile)
    (hg : ∀ f, (g f).id = f.id) : ids (setFile fs id g) = ids fs := by
  unfold ids setFile
  rw [List.map_map]
  apply List.map_congr_left
  intro f _
  show (if f.id = id then g f else f).id = f.id
  split
  · exact hg f
  · rfl

/-- Counting uploading items one element at a time. -/
theorem countUploading_cons (a : UploadFile) (t : List UploadFile) :
    countUploading (a :: t)
      = countUploading t + (if a.status = .uploading then 1 else 0) := by
  unfold countUploading
  rw [List.countP_cons]
  simp

/-- Marking a non-uploading item as uploading raises the count by one
(ids are distinct, so exactly one item changes). -/
theorem countUploading_setFile_start (fs : List UploadFile) (f0 : UploadFile)
    (hnd : (ids fs).Nodup) (hmem : f0 ∈ fs) (hq : f0.status ≠ .uploading) :
    countUploading (setFile fs f0.id markUploading) = countUploading fs + 1 := by
  induction fs with
  | nil => cases hmem
  | cons a t ih =>
    rw [ids, List.map_cons, List.nodup_cons] at hnd
    obtain ⟨hna, hndt⟩ := hnd
    rw [setFile_cons]
    rcases List.mem_cons.mp hmem with rfl | hmt
    · rw [if_pos rfl, setFile_of_not_mem t f0.id markUploading
        (fun f hf he => hna (he ▸ List.mem_map_of_mem _ hf)),
        countUploading_cons, countUploading_cons]
      simp [markUploading, hq]
    · have hne : a.id ≠ f0.id := fun he => hna (he ▸ List.mem_map_of_mem _ hmt)
      rw [if_neg hne, countUploading_cons, countUploading_cons, ih hndt hmt]
      omega

/-- Moving the unique uploading item with a given id out of `uploading`
status lowers the count by one. -/
theorem countUploading_setFile_stop (fs : List UploadFile) (f0 : UploadFile)
    (g : UploadFile → UploadFile) (hnd : (ids fs).Nodup) (hmem : f0 ∈ fs)
    (hup : f0.status = .uploading) (hgs : (g f0).status ≠ .uploading) :
    countUploading fs = countUploading (setFile fs f0.id g) + 1 := by
  induction fs with
  | nil => cases hmem
  | cons a t ih =>
    rw [ids, List.map_cons, List.nodup_cons] at hnd
    obtain ⟨hna, hndt⟩ := hnd
    rw [setFile_cons]
    rcases List.mem_cons.mp hmem with rfl | hmt
    · rw [if_pos rfl, setFile_of_not_mem t f0.id g
        (fun f hf he => hna (he ▸ List.mem_map_of_mem _ hf)),
        countUploading_cons, countUploading_cons]
      simp [hup, hgs]
    · have hne : a.id ≠ f0.id := fun he => hna (he ▸ List.mem_map_of_mem _ hmt)
      rw [if_neg hne, countUploading_cons, countUploading_cons, ih hndt hmt]
      omega

/-- An update that does not change whether the targeted item is
uploading keeps the count. -/
theorem countUploading_setFile_keep (fs : List UploadFile) (f0 : UploadFile)
    (g : UploadFile → UploadFile) (hnd : (ids fs).Nodup) (hmem : f0 ∈ fs)
    (hiff : (g f0).status = .uploading ↔ f0.status = .uploading) :
    countUploading (setFile fs f0.id g) = countUploading fs := by
  induction fs with
  | nil => rfl
  | cons a t ih =>
    rw [ids, List.map_cons, List.nodup_cons] at hnd
    obtain ⟨hna, hndt⟩ := hnd
    rw [setFile_cons]
    rcases List.mem_cons.mp hmem with rfl | hmt
    · rw [if_pos rfl, setFile_of_not_mem t f0.id g
        (fun f hf he => hna (he ▸ List.mem_map_of_mem _ hf)),
        countUploading_cons, countUploading_cons]
      by_cases hu : f0.status = .uploading
      · rw [if_pos hu, if_pos (hiff.mpr hu)]
      · rw [if_neg hu, if_neg (fun hc => hu (hiff.mp hc))]
    · have hne : a.id ≠ f0.id := fun he => hna (he ▸ List.mem_map_of_mem _ hmt)
      rw [if_neg hne, countUploading_cons, countUploading_cons, ih hndt hmt]

/-- Removing the unique item with a given id lowers the count by one
exactly when that item was uploading. -/
theorem countUploading_filter_rm (fs : List UploadFile) (f0 : UploadFile)
    (hnd : (ids fs).Nodup) (hmem : f0 ∈ fs) :
    countUploading fs
      = countUploading (fs.filter (fun f => decide (f.id ≠ f0.id)))
        + (if f0.status = .uploading then 1 else 0) := by
  induction fs with
  | nil => cases hmem
  | cons a t ih =>
    rw [ids, List.map_cons, List.nodup_cons] at hnd
    obtain ⟨hna, hndt⟩ := hnd
    rw [List.filter_cons]
    rcases List.mem_cons.mp hmem with rfl | hmt
    · rw [if_neg (by simp)]
      rw [List.filter_eq_self.mpr
        (fun f hf => by
          simp only [decide_eq_true_eq]
          exact fun he => hna (he ▸ List.mem_map_of_mem _ hf)),
        countUploading_cons]
    · have hne : a.id ≠ f0.id := fun he => hna (he ▸ List.mem_map_of_mem _ hmt)
      rw [if_pos (by simpa using hne), countUploading_cons, countUploading_cons,
        ih hndt hmt]
      omega

/-- Appending only `queued` items does not change the count. -/
theorem countUploading_append_queued (fs gs : List UploadFile)
    (h : ∀ f ∈ gs, f.status = .queued) :
    countUploading (fs ++ gs) = countUploading fs := by
  unfold countUploading
  rw [List.countP_append]
  have h0 : gs.countP (fun f => decide (f.status = .uploading)) = 0 := by
    rw [List.countP_eq_zero]
    intro f hf
    simp [h f hf]
  omega

/-- After `cancelAll`'s per-file update no item is uploading. -/
theorem countUploading_cancel (fs : List UploadFile) :
    countUploading (fs.map cancelFile) = 0 := by
  unfold countUploading
  rw [List.countP_eq_zero]
  intro f hf
  obtain ⟨g, hg, rfl⟩ := List.mem_map.mp hf
  unfold cancelFile
  split
  · simp
  · next hcond =>
    simp only [decide_eq_true_eq]
    exact fun h => hcond (Or.inl h)

end ValvX.Client

namespace ValvX.Client

/-- The scheduler preserves the queue invariant: it starts queued items
only while `activeUploads` is below the ceiling, keeping the counter in
sync and the uploading count bounded. -/
theorem processQueueAux_inv (n : Nat) :
    ∀ s : QueueState, (ids s.files).Nodup →
      s.activeUploads = (countUploading s.files : Int) →
      (countUploading s.files : Int) ≤ maxParallelUploads →
      QueueInv (processQueueAux n s) := by
  induction n with
  | zero => intro s h1 h2 h3; exact ⟨h1, h2, h3⟩
  | succ n ih =>
    intro s h1 h2 h3
    have hunf : processQueueAux (n + 1) s
        = if s.activeUploads < maxParallelUploads then
            (match s.files.find? (fun f => decide (f.status = .queued)) with
            | none => s
            | some f => processQueueAux n (startUpload s f))
          else s := rfl
    rw [hunf]
    by_cases hlt : s.activeUploads < maxParallelUploads
    · rw [if_pos hlt]
      cases hf : s.files.find? (fun f => decide (f.status = .queued)) with
      | none => exact ⟨h1, h2, h3⟩
      | some f =>
        have hmem := List.mem_of_find?_eq_some hf
        have hq : f.status = .queued := by
          have := List.find?_some hf
          simpa using this
        have hqne : f.status ≠ .uploading := by rw [hq]; exact fun h => by cases h
        have hcnt := countUploading_setFile_start s.files f h1 hmem hqne
        apply ih
        · show (ids (setFile s.files f.id markUploading)).Nodup
          rw [ids_setFile s.files f.id markUploading (fun g => rfl)]
          exact h1
        · show s.activeUploads + 1
            = (countUploading (setFile s.files f.id markUploading) : Int)
          rw [hcnt]
          omega
        · show (countUploading (setFile s.files f.id markUploading) : Int)
            ≤ maxParallelUploads
          rw [hcnt]
          rw [h2] at hlt
          unfold maxParallelUploads at hlt ⊢
          omega
    · rw [if_neg hlt]
      exact ⟨h1, h2, h3⟩

/-- Pausing an item that is actually uploading preserves the invariant:
the freed slot is re-filled by the scheduler, never past the ceiling. -/
theorem queueInv_pause (s : QueueState) (id : Nat)
    (hup : statusOf s id = some .uploading) (hinv : QueueInv s) :
    QueueInv (pauseUpload s id) := by
  obtain ⟨h1, h2, h3⟩ := hinv
  unfold pauseUpload
  by_cases hg : s.instances.contains id ∧ (findFile s id).isSome
  · rw [if_pos hg]
    obtain ⟨f0, hfind⟩ := Option.isSome_iff_exists.mp hg.2
    have hmem : f0 ∈ s.files := List.mem_of_find?_eq_some hfind
    have hid : f0.id = id := by
      have := List.find?_some hfind
      simpa using this
    have hups : f0.status = .uploading := by
      rw [statusOf, hfind] at hup
      simpa using hup
    have hcnt := countUploading_setFile_stop s.files f0
      (fun f => { f with status := .paused }) h1 hmem hups (fun h => by cases h)
    rw [hid] at hcnt
    apply processQueueAux_inv
    · show (ids (setFile s.files id (fun f => { f with status := UploadStatus.paused }))).Nodup
      rw [ids_setFile s.files id (fun f => { f with status := UploadStatus.paused }) (fun g => rfl)]
      exact h1
    · show s.activeUploads - 1
        = (countUploading (setFile s.files id (fun f => { f with status := UploadStatus.paused })) : Int)
      omega
    · show (countUploading (setFile s.files id (fun f => { f with status := UploadStatus.paused })) : Int)
        ≤ maxParallelUploads
      unfold maxParallelUploads at h3 ⊢
      omega
  · rw [if_neg hg]
    exact ⟨h1, h2, h3⟩

/-- The `onSuccess` callback preserves the invariant. -/
theorem queueInv_onSuccess (s : QueueState) (id : Nat) (hinv : QueueInv s) :
    QueueInv (onSuccess s id) := by
  obtain ⟨h1, h2, h3⟩ := hinv
  unfold onSuccess
  by_cases hg : s.instances.contains id ∧ statusOf s id = some .uploading
  · rw [if_pos hg]
    have hup := hg.2
    rw [statusOf] at hup
    obtain ⟨f0, hfind, hst⟩ := Option.map_eq_some'.mp hup
    have hmem : f0 ∈ s.files := List.mem_of_find?_eq_some hfind
    have hid : f0.id = id := by
      have := List.find?_some hfind
      simpa using this
    have hcnt := countUploading_setFile_stop s.files f0
      (fun f => { f with status := .complete, progress := 100 }) h1 hmem hst
      (fun h => by cases h)
    rw [hid] at hcnt
    apply processQueueAux_inv
    · show (ids (setFile s.files id
        (fun f => { f with status := UploadStatus.complete, progress := 100 }))).Nodup
      rw [ids_setFile s.files id
        (fun f => { f with status := UploadStatus.complete, progress := 100 }) (fun g => rfl)]
      exact h1
    · show s.activeUploads - 1
        = (countUploading (setFile s.files id
            (fun f => { f with status := UploadStatus.complete, progress := 100 })) : Int)
      omega
    · show (countUploading (setFile s.files id
          (fun f => { f with status := UploadStatus.complete, progress := 100 })) : Int)
        ≤ maxParallelUploads
      unfold maxParallelUploads at h3 ⊢
      omega
  · rw [if_neg hg]
    exact ⟨h1, h2, h3⟩

/-- The `onError` callback preserves the invariant. -/
theorem queueInv_onError (s : QueueState) (id : Nat) (msg : String)
    (hinv : QueueInv s) : QueueInv (onError s id msg) := by
  obtain ⟨h1, h2, h3⟩ := hinv
  unfold onError
  by_cases hg : s.instances.contains id ∧ statusOf s id = some .uploading
  · rw [if_pos hg]
    have hup := hg.2
    rw [statusOf] at hup
    obtain ⟨f0, hfind, hst⟩ := Option.map_eq_some'.mp hup
    have hmem : f0 ∈ s.files := List.mem_of_find?_eq_some hfind
    have hid : f0.id = id := by
      have := List.find?_some hfind
      simpa using this
    have hcnt := countUploading_setFile_stop s.files f0
      (fun f => { f with status := .error, errMsg := some msg }) h1 hmem hst
      (fun h => by cases h)
    rw [hid] at hcnt
    apply processQueueAux_inv
    · show (ids (setFile s.files id
        (fun f => { f with status := UploadStatus.error, errMsg := some msg }))).Nodup
      rw [ids_setFile s.files id
        (fun f => { f with status := UploadStatus.error, errMsg := some msg }) (fun g => rfl)]
      exact h1
    · show s.activeUploads - 1
        = (countUploading (setFile s.files id
            (fun f => { f with status := UploadStatus.error, errMsg := some msg })) : Int)
      omega
    · show (countUploading (setFile s.files id
          (fun f => { f with status := UploadStatus.error, errMsg := some msg })) : Int)
        ≤ maxParallelUploads
      unfold maxParallelUploads at h3 ⊢
      omega
  · rw [if_neg hg]
    exact ⟨h1, h2, h3⟩

/-- Model of `retryUpload` preserves the invariant: the reset moves an `error`
item to `queued`, leaving the uploading count untouched before the
scheduler runs. -/
theorem queueInv_retry (s : QueueState) (id : Nat) (hinv : QueueInv s) :
    QueueInv (retryUpload s id) := by
  obtain ⟨h1, h2, h3⟩ := hinv
  unfold retryUpload
  cases hfind : findFile s id with
  | none => exact ⟨h1, h2, h3⟩
  | some f =>
    show QueueInv (if f.status = UploadStatus.error then
      processQueue
        { files := setFile s.files id markRetried
          activeUploads := s.activeUploads
          instances := instErase s.instances id }
      else s)
    by_cases herr : f.status = .error
    · rw [if_pos herr]
      have hmem : f ∈ s.files := List.mem_of_find?_eq_some hfind
      have hid : f.id = id := by
        have := List.find?_some hfind
        simpa using this
      have hcnt := countUploading_setFile_keep s.files f markRetried h1 hmem
        (by simp [markRetried, herr])
      rw [hid] at hcnt
      apply processQueueAux_inv
      · show (ids (setFile s.files id markRetried)).Nodup
        rw [ids_setFile s.files id markRetried (fun g => rfl)]
        exact h1
      · show s.activeUploads
          = (countUploading (setFile s.files id markRetried) : Int)
        omega
      · show (countUploading (setFile s.files id markRetried) : Int)
          ≤ maxParallelUploads
        omega
    · rw [if_neg herr]
      exact ⟨h1, h2, h3⟩

/-- Model of `removeUpload` preserves the invariant: the counter is decremented
exactly when the removed item occupied a slot. -/
theorem queueInv_remove (s : QueueState) (id : Nat) (hinv : QueueInv s) :
    QueueInv (removeUpload s id) := by
  obtain ⟨h1, h2, h3⟩ := hinv
  unfold removeUpload
  have hnodup : (ids (s.files.filter (fun f => decide (f.id ≠ id)))).Nodup := by
    unfold ids
    exact h1.sublist ((List.filter_sublist s.files).map _)
  cases hfind : findFile s id with
  | none =>
    have hall : ∀ f ∈ s.files, ¬ f.id = id := by
      intro f hf
      have := List.find?_eq_none.mp hfind f hf
      simpa using this
    have hfilter : s.files.filter (fun f => decide (f.id ≠ id)) = s.files :=
      List.filter_eq_self.mpr (fun f hf => by simpa using hall f hf)
    have hdec : removeDec s id = 0 := by unfold removeDec; rw [hfind]
    apply processQueueAux_inv
    · exact hnodup
    · show s.activeUploads - removeDec s id
        = (countUploading (s.files.filter (fun f => decide (f.id ≠ id))) : Int)
      rw [hdec, hfilter]
      omega
    · show (countUploading (s.files.filter (fun f => decide (f.id ≠ id))) : Int)
        ≤ maxParallelUploads
      rw [hfilter]
      exact h3
  | some f0 =>
    have hmem : f0 ∈ s.files := List.mem_of_find?_eq_some hfind
    have hid : f0.id = id := by
      have := List.find?_some hfind
      simpa using this
    have hcnt := countUploading_filter_rm s.files f0 h1 hmem
    rw [hid] at hcnt
    by_cases hu : f0.status = .uploading
    · have hdec : removeDec s id = 1 := by
        unfold removeDec
        rw [hfind]
        show (if f0.status = UploadStatus.uploading then (1 : Int) else 0) = 1
        rw [if_pos hu]
      rw [if_pos hu] at hcnt
      apply processQueueAux_inv
      · exact hnodup
      · show s.activeUploads - removeDec s id
          = (countUploading (s.files.filter (fun f => decide (f.id ≠ id))) : Int)
        rw [hdec]
        omega
      · show (countUploading (s.files.filter (fun f => decide (f.id ≠ id))) : Int)
          ≤ maxParallelUploads
        unfold maxParallelUploads at h3 ⊢
        omega
    · have hdec : removeDec s id = 0 := by
        unfold removeDec
        rw [hfind]
        show (if f0.status = UploadStatus.uploading then (1 : Int) else 0) = 0
        rw [if_neg hu]
      rw [if_neg hu] at hcnt
      apply processQueueAux_inv
      · exact hnodup
      · show s.activeUploads - removeDec s id
          = (countUploading (s.files.filter (fun f => decide (f.id ≠ id))) : Int)
        rw [hdec]
        omega
      · show (countUploading (s.files.filter (fun f => decide (f.id ≠ id))) : Int)
          ≤ maxParallelUploads
        omega

/-- Model of `addFiles` preserves the invariant when the generated ids are fresh
and distinct. -/
theorem queueInv_add (s : QueueState) (nf : List (Nat × String × Nat))
    (hids : (nf.map Prod.fst).Nodup)
    (hfresh : ∀ i ∈ nf.map Prod.fst, i ∉ ids s.files) (hinv : QueueInv s) :
    QueueInv (addFiles s nf) := by
  obtain ⟨h1, h2, h3⟩ := hinv
  unfold addFiles
  have hqueued : ∀ f ∈ nf.map (fun t =>
      ({ id := t.1, name := t.2.1, status := .queued, progress := 0,
         bytesUploaded := 0, bytesTotal := t.2.2, errMsg := none } : UploadFile)),
      f.status = UploadStatus.queued := by
    intro f hf
    obtain ⟨t, ht, rfl⟩ := List.mem_map.mp hf
    rfl
  have hcnt := countUploading_append_queued s.files _ hqueued
  apply processQueueAux_inv
  · show (ids (s.files ++ _)).Nodup
    unfold ids
    rw [List.map_append]
    apply List.Nodup.append
    · exact h1
    · rw [List.map_map]
      exact hids
    · intro a ha hb
      rw [List.map_map] at hb
      exact hfresh a hb ha
  · show s.activeUploads = _
    rw [hcnt]
    exact h2
  · rw [hcnt]
    exact h3

/-- Model of `cancelAll` preserves the invariant (everything stops). -/
theorem queueInv_cancel (s : QueueState) (hinv : QueueInv s) :
    QueueInv (cancelAll s) := by
  refine ⟨?_, ?_, ?_⟩
  · show (ids (s.files.map cancelFile)).Nodup
    unfold ids
    rw [List.map_map]
    have he : ((fun f => f.id) ∘ cancelFile) = fun f : UploadFile => f.id := by
      funext f
      show (cancelFile f).id = f.id
      unfold cancelFile
      split <;> rfl
    rw [he]
    exact hinv.1
  · show (0 : Int) = (countUploading (s.files.map cancelFile) : Int)
    rw [countUploading_cancel]
    rfl
  · show (countUploading (s.files.map cancelFile) : Int) ≤ maxParallelUploads
    rw [countUploading_cancel]
    unfold maxParallelUploads
    omega

/-- Every state reachable through the well-behaved operation set
satisfies the queue invariant. -/
theorem reachableSafe_queueInv : ∀ s : QueueState, ReachableSafe s → QueueInv s := by
  intro s h
  induction h with
  | init => exact ⟨List.nodup_nil, rfl, by decide⟩
  | add s nf hids hfresh _ ih => exact queueInv_add s nf hids hfresh ih
  | pause s id hup _ ih => exact queueInv_pause s id hup ih
  | retry s id _ ih => exact queueInv_retry s id ih
  | remove s id _ ih => exact queueInv_remove s id ih
  | finishOk s id _ ih => exact queueInv_onSuccess s id ih
  | finishErr s id msg _ ih => exact queueInv_onError s id msg ih
  | cancel s _ ih => exact queueInv_cancel s ih

end ValvX.Client

/-- C3 (amended): for every state reachable through sequences of
enqueue, retry, remove, and cancel operations, the completion callbacks,
and pauses of items that are actually uploading, the number of items in
`uploading` status never exceeds `MAX_PARALLEL_UPLOADS` (3) and agrees
with the `activeUploads` counter; and whenever the counter has reached
the ceiling the scheduler is a no-op, so items enqueued beyond the limit
stay `queued` until a slot frees.  Both exclusions are forced by the
counterexample's two sequences: `resumeUpload` re-starts a paused item
with no ceiling check and pushes the uploading count above the maximum,
and `pauseUpload` applied to an item that is not uploading (it has no
status check and keeps the tus instance, so an already-paused item still
passes its guard) decrements the counter a second time for the same
item, after which the scheduler starts an extra upload into the phantom
slot. -/
theorem claim_C3_amended (s : ValvX.Client.QueueState)
    (h : ValvX.Client.ReachableSafe s) :
    (ValvX.Client.countUploading s.files : Int) ≤ ValvX.Client.maxParallelUploads ∧
    s.activeUploads = (ValvX.Client.countUploading s.files : Int) ∧
    (∀ s2 : ValvX.Client.QueueState,
      ¬ s2.activeUploads < ValvX.Client.maxParallelUploads →
      ValvX.Client.processQueue s2 = s2) := by
  obtain ⟨h1, h2, h3⟩ := ValvX.Client.reachableSafe_queueInv s h
  refine ⟨h3, h2, ?_⟩
  intro s2 hnl
  unfold ValvX.Client.processQueue
  cases hlen : s2.files.length with
  | zero => rfl
  | succ n =>
    show (if s2.activeUploads < ValvX.Client.maxParallelUploads then
        (match s2.files.find? (fun f => decide (f.status = .queued)) with
        | none => s2
        | some f => ValvX.Client.processQueueAux n (ValvX.Client.startUpload s2 f))
      else s2) = s2
    rw [if_neg hnl]

/-- C3 amended-claim witness: enqueueing a burst of four files starts
exactly three and the uploading count stays within the ceiling. -/
theorem claim_C3_amended_witness :
    (ValvX.Client.countUploading
        (ValvX.Client.addFiles ValvX.Client.initState ValvX.Client.demoBatch).files : Int)
      ≤ ValvX.Client.maxParallelUploads := by
  have hr : ValvX.Client.ReachableSafe
      (ValvX.Client.addFiles ValvX.Client.initState ValvX.Client.demoBatch) :=
    ValvX.Client.ReachableSafe.add ValvX.Client.initState ValvX.Client.demoBatch
      (by decide) (by decide) ValvX.Client.ReachableSafe.init
  exact (claim_C3_amended _ hr).1
